import Mathlib

set_option linter.unusedVariables false

/-!
Shallow embedding of the xmtp.mx relay coordination core: the durable state
store (`db.ts`), the outbound XMTP message handler and inbound delivery worker
(`index.ts`), the deduping work queue (`queue.ts`) and the Mailgun send input
shape (`mailgunSend.ts`).  SQLite rows are modeled as Lean structures, tables
as lists of rows, and each store method as a pure function on the store value.
-/

/-- JavaScript truthiness of a nullable string value: `null`/`undefined` and
`""` are falsy, every other string is truthy. -/
def jsTruthy : Option String → Bool
  | none => false
  | some s => s != ""

/-- JavaScript `String.prototype.trim`, modeled over the character list
(whitespace per `Char.isWhitespace`). -/
def jsTrim (s : String) : String :=
  String.mk (((s.data.dropWhile Char.isWhitespace).reverse.dropWhile Char.isWhitespace).reverse)

/-- JavaScript `String.prototype.toLowerCase`, modeled as ASCII case mapping. -/
def jsToLower (s : String) : String :=
  String.mk (s.data.map Char.toLower)

/-- JavaScript `String.prototype.startsWith`. -/
def jsStartsWith (s pre : String) : Bool :=
  pre.data.isPrefixOf s.data

/-- Dedupe key for `inbound_email` (db.ts `computeInboundDedupeKey`): either a
transport-provided id, or `sha256:<hex digest>` of a content preimage.  SHA-256
is a runtime primitive; it is modeled as a constructor applied to the exact
preimage string that the source feeds to `hash.update`, so two keys are equal
exactly when the preimages are equal (collision-freedom of the hash). -/
inductive DedupeKey where
  | direct (base : String)
  | sha256 (preimage : String)
deriving DecidableEq, Repr

/-- `a?.trim() || b?.trim()` followed by the source's `if (base)` truthiness
test: the first trimmed operand that is a nonempty string, if any. -/
def firstTruthyTrimmed (a b : Option String) : Option String :=
  match a.map jsTrim with
  | some s =>
      if s != "" then some s
      else match b.map jsTrim with
           | some t => if t != "" then some t else none
           | none => none
  | none =>
      match b.map jsTrim with
      | some t => if t != "" then some t else none
      | none => none

/-- Input record of `RelayDb.insertInboundEmail` (db.ts `InboundEmailInsert`). -/
structure InboundEmailInsert where
  mailgunMessageId : Option String
  messageId : Option String
  «from» : String
  «to» : String
  subject : Option String
  text : Option String
  html : Option String
  receivedAt : String
deriving DecidableEq, Repr

/-- db.ts `computeInboundDedupeKey`: a transport id when present (Mailgun id
preferred, RFC Message-Id fallback), otherwise the SHA-256 of the
newline-joined content fields `from`, `to`, `subject ?? ''`, `text ?? ''`,
`receivedAt`. -/
def computeInboundDedupeKey (input : InboundEmailInsert) : DedupeKey :=
  match firstTruthyTrimmed input.mailgunMessageId input.messageId with
  | some base => DedupeKey.direct base
  | none =>
      DedupeKey.sha256
        (input.«from» ++ "\n" ++ input.«to» ++ "\n" ++ (input.subject.getD "") ++ "\n"
          ++ (input.text.getD "") ++ "\n" ++ input.receivedAt)

/-- One row of the `inbound_email` table (db.ts `InboundEmailRow`). -/
structure InboundEmailRow where
  id : Nat
  dedupe_key : DedupeKey
  mailgun_message_id : Option String
  message_id : Option String
  «from» : String
  «to» : String
  subject : Option String
  text : Option String
  html : Option String
  received_at : String
  xmtp_sent_at : Option String
deriving DecidableEq, Repr

/-- Status column of `outbound_request` (db.ts `OutboundRequestRow['status']`). -/
inductive OutboundStatus where
  | received
  | sending
  | sent
  | failed
deriving DecidableEq, Repr

/-- One row of the `outbound_request` table (db.ts `OutboundRequestRow`).  The
`to_email`/`cc_email`/`bcc_email` columns hold `JSON.stringify` of a string
array in SQL; since `JSON.stringify` is injective on string arrays and no code
path inspects the serialized text, the columns are modeled by the arrays
themselves. -/
structure OutboundRequestRow where
  id : Nat
  xmtp_msg_id : String
  from_inbox : String
  to_email : List String
  cc_email : List String
  bcc_email : List String
  subject : Option String
  text : Option String
  html : Option String
  status : OutboundStatus
  mailgun_id : Option String
  error : Option String
  created_at : String
  updated_at : String
deriving DecidableEq, Repr

/-- The durable state store (db.ts `RelayDb`): the three tables plus the next
AUTOINCREMENT rowid of each of the two row tables. -/
structure RelayDb where
  inbound : List InboundEmailRow
  nextInboundId : Nat
  outbound : List OutboundRequestRow
  nextOutboundId : Nat
  allowlist : List String
deriving DecidableEq, Repr

/-- A freshly opened store (db.ts `RelayDb.open` + `init` on an empty file). -/
def RelayDb.empty : RelayDb :=
  { inbound := [], nextInboundId := 1, outbound := [], nextOutboundId := 1, allowlist := [] }

/-- db.ts `seedAllowlist`: `INSERT OR IGNORE` of each value, trimmed and
lowercased. -/
def RelayDb.seedAllowlist (db : RelayDb) (values : List String) : RelayDb :=
  values.foldl
    (fun d v =>
      let key := jsToLower (jsTrim v)
      if d.allowlist.contains key then d else { d with allowlist := d.allowlist ++ [key] })
    db

/-- db.ts `isAllowlisted`: membership of the trimmed, lowercased identity in
`allowlist_xmtp`. -/
def RelayDb.isAllowlisted (db : RelayDb) (senderInboxOrAddress : String) : Bool :=
  db.allowlist.contains (jsToLower (jsTrim senderInboxOrAddress))

/-- db.ts `insertInboundEmail`: computes the dedupe key and performs
`INSERT OR IGNORE` against the UNIQUE `dedupe_key` column; returns the fresh
rowid on first insertion and `none` (0 changes) on a duplicate. -/
def RelayDb.insertInboundEmail (db : RelayDb) (input : InboundEmailInsert) :
    RelayDb × Option Nat :=
  let dedupeKey := computeInboundDedupeKey input
  if db.inbound.any (fun r => r.dedupe_key == dedupeKey) then
    (db, none)
  else
    let row : InboundEmailRow :=
      { id := db.nextInboundId
        dedupe_key := dedupeKey
        mailgun_message_id := input.mailgunMessageId
        message_id := input.messageId
        «from» := input.«from»
        «to» := input.«to»
        subject := input.subject
        text := input.text
        html := input.html
        received_at := input.receivedAt
        xmtp_sent_at := none }
    ({ db with inbound := db.inbound ++ [row], nextInboundId := db.nextInboundId + 1 },
      some db.nextInboundId)

/-- db.ts `getInboundEmailById`: `SELECT * FROM inbound_email WHERE id = ?`. -/
def RelayDb.getInboundEmailById (db : RelayDb) (id : Nat) : Option InboundEmailRow :=
  db.inbound.find? (fun r => r.id == id)

/-- db.ts `listUnsentInboundEmails`: rows with NULL `xmtp_sent_at`, in id
order (rows are kept in AUTOINCREMENT id order), limited. -/
def RelayDb.listUnsentInboundEmails (db : RelayDb) (limit : Nat) : List InboundEmailRow :=
  (db.inbound.filter (fun r => r.xmtp_sent_at == none)).take limit

/-- db.ts `markInboundEmailSent`: `UPDATE inbound_email SET xmtp_sent_at = ?
WHERE id = ?`. -/
def RelayDb.markInboundEmailSent (db : RelayDb) (id : Nat) (sentAt : String) : RelayDb :=
  { db with
    inbound :=
      db.inbound.map (fun r => if r.id == id then { r with xmtp_sent_at := some sentAt } else r) }

/-- db.ts `getOutboundRequestByXmtpMsgId`:
`SELECT * FROM outbound_request WHERE xmtp_msg_id = ?`. -/
def RelayDb.getOutboundRequestByXmtpMsgId (db : RelayDb) (xmtpMsgId : String) :
    Option OutboundRequestRow :=
  db.outbound.find? (fun r => r.xmtp_msg_id == xmtpMsgId)

/-- Input record of `RelayDb.insertOutboundRequest` (db.ts). -/
structure OutboundInsertInput where
  xmtpMsgId : String
  fromInbox : String
  «to» : List String
  cc : List String
  bcc : List String
  subject : Option String
  text : Option String
  html : Option String
  createdAt : String
deriving DecidableEq, Repr

/-- db.ts `insertOutboundRequest`: `INSERT OR IGNORE` against the UNIQUE
`xmtp_msg_id` column with status `'received'` and NULL `mailgun_id`/`error`,
then a fetch of the row by `xmtp_msg_id` (the source throws when the fetch
comes back empty, modeled by the `Option` in the second component). -/
def RelayDb.insertOutboundRequest (db : RelayDb) (input : OutboundInsertInput) :
    RelayDb × Option OutboundRequestRow :=
  let db' :=
    if db.outbound.any (fun r => r.xmtp_msg_id == input.xmtpMsgId) then db
    else
      let row : OutboundRequestRow :=
        { id := db.nextOutboundId
          xmtp_msg_id := input.xmtpMsgId
          from_inbox := input.fromInbox
          to_email := input.«to»
          cc_email := input.cc
          bcc_email := input.bcc
          subject := input.subject
          text := input.text
          html := input.html
          status := OutboundStatus.received
          mailgun_id := none
          error := none
          created_at := input.createdAt
          updated_at := input.createdAt }
      { db with outbound := db.outbound ++ [row], nextOutboundId := db.nextOutboundId + 1 }
  (db', db'.getOutboundRequestByXmtpMsgId input.xmtpMsgId)

/-- The `update` argument of db.ts `updateOutboundRequestStatus`.  For the two
optional fields, `none` models a key that is not provided and `some none`
models a key explicitly set to `null`. -/
structure OutboundStatusUpdate where
  status : OutboundStatus
  mailgunId : Option (Option String)
  error : Option (Option String)
deriving DecidableEq, Repr

/-- JavaScript `v ?? null` applied to an optional update field: both a missing
key and an explicit `null` collapse to the SQL NULL parameter. -/
def jsNullishToNull : Option (Option String) → Option String
  | some (some s) => some s
  | some none => none
  | none => none

/-- SQL `COALESCE(param, column)`. -/
def sqlCoalesce (param old : Option String) : Option String :=
  match param with
  | some s => some s
  | none => old

/-- db.ts `updateOutboundRequestStatus`: `UPDATE outbound_request SET
status = ?, mailgun_id = COALESCE(?, mailgun_id), error = COALESCE(?, error),
updated_at = ? WHERE xmtp_msg_id = ?`, with each optional parameter first
collapsed through `?? null`. -/
def RelayDb.updateOutboundRequestStatus (db : RelayDb) (xmtpMsgId : String)
    (update : OutboundStatusUpdate) (updatedAt : String) : RelayDb :=
  { db with
    outbound :=
      db.outbound.map (fun r =>
        if r.xmtp_msg_id == xmtpMsgId then
          { r with
            status := update.status
            mailgun_id := sqlCoalesce (jsNullishToNull update.mailgunId) r.mailgun_id
            error := sqlCoalesce (jsNullishToNull update.error) r.error
            updated_at := updatedAt }
        else r) }

/-- The regex character class `[a-zA-Z0-9]`; the source's `[^a-z0-9]` under
the `i` flag is exactly the complement of this class. -/
def isAsciiAlnumCI (c : Char) : Bool :=
  (('a' ≤ c) && (c ≤ 'z')) || (('A' ≤ c) && (c ≤ 'Z')) || (('0' ≤ c) && (c ≤ '9'))

/-- Case-insensitive (`i` flag) match of a lowercase-ASCII token against the
head of a character list; `some rest` returns the characters after the token. -/
def matchTokenCI : List Char → List Char → Option (List Char)
  | [], rest => some rest
  | _ :: _, [] => none
  | t :: ts, c :: cs => if c.toLower == t then matchTokenCI ts cs else none

/-- The regex tail `(\b|[^a-z0-9])` at the position after a matched greeting
token (the preceding character is always a word character): `\b` accepts the
end of the string or a non-word next character, `[^a-z0-9]` with `i` accepts a
non-alphanumeric next character; together they accept exactly end-of-string or
a next character outside `[a-zA-Z0-9]`. -/
def tailBoundaryOk : List Char → Bool
  | [] => true
  | c :: _ => !(isAsciiAlnumCI c)

/-- The alternatives of the greeting regex in index.ts `isGreetingMessage`. -/
def greetingTokens : List String := ["hello", "hi", "hey", "help", "start", "info"]

/-- `/^(hello|hi|hey|help|start|info)(\b|[^a-z0-9])/i.test(s)`: some token is
a case-insensitive prefix of `s` and is followed by an acceptable boundary.
(The token alternatives are pairwise prefix-incompatible, so alternation order
does not matter.) -/
def greetingRegexTest (s : String) : Bool :=
  greetingTokens.any (fun g =>
    match matchTokenCI g.toList s.toList with
    | some rest => tailBoundaryOk rest
    | none => false)

/-- index.ts `isGreetingMessage`.  `trim`/`toLowerCase` are modeled by
`String.trim`/`String.toLower` (ASCII case mapping). -/
def isGreetingMessage (content : String) : Bool :=
  let trimmed := jsTrim content
  if trimmed == "" then false
  else if jsStartsWith trimmed "\x7b" || jsStartsWith trimmed "```" then false
  else
    let lower := jsToLower trimmed
    if lower == "?" then true
    else greetingRegexTest lower

/-- Modelled from the spec: the parsed form of a valid `email.send.v1` payload
(§6 outbound schema: `to` required, `cc`/`bcc`/`subject`/`text`/`html`/
`replyTo` optional); the defining module `src/messages.ts`
(`emailSendV1Schema`) is not part of the source tree. -/
structure EmailSendV1 where
  «to» : List String
  cc : List String
  bcc : List String
  subject : Option String
  text : Option String
  html : Option String
  replyTo : Option String
deriving DecidableEq, Repr

/-- Modelled from the spec: the `email.send.result.v1` reply document (§6:
`{type, ok, mailgunId: string|null, error: string|null}`); the defining module
`src/messages.ts` (`makeEmailSendResultV1`) is not part of the source tree.
Fields a call site omits are `null` in the document. -/
structure EmailSendResultV1 where
  ok : Bool
  mailgunId : Option String
  error : Option String
deriving DecidableEq, Repr

/-- Modelled from the spec: constructor of the `email.send.result.v1` document
(§6); `src/messages.ts` is not part of the source tree. -/
def makeEmailSendResultV1 (ok : Bool) (mailgunId : Option String)
    (error : Option String) : EmailSendResultV1 :=
  { ok := ok, mailgunId := mailgunId, error := error }

/-- Outcome of the handler's JSON classification pipeline
(`parseJsonishMessage`, the `type` field check, `emailSendV1Schema.parse`).
`JSON.parse` is a runtime primitive and `src/messages.ts` is not in the source
tree, so the pipeline's outcome on the trimmed content is a handler parameter:
`nonJson` — no parse strategy produced JSON; `wrongType t` — JSON whose `type`
field is `t` (a non-string or missing `type` is `none`), not `email.send.v1`;
`invalidPayload` — `type` is `email.send.v1` but schema validation threw;
`valid req` — schema validation returned `req`. -/
inductive ParseOutcome where
  | nonJson
  | wrongType (typeField : Option String)
  | invalidPayload
  | valid (req : EmailSendV1)
deriving DecidableEq, Repr

/-- Whether the classified content carried `type: "email.send.v1"`. -/
def ParseOutcome.isEmailSendV1Type : ParseOutcome → Bool
  | ParseOutcome.invalidPayload => true
  | ParseOutcome.valid _ => true
  | _ => false

/-- A reply the handler sends back on the conversation, recorded structurally
(the source serializes result payloads with `JSON.stringify` and renders the
intro text with `buildIntroMessage`). -/
inductive Reply where
  | intro (allowlisted : Bool)
  | unknownType (typeField : Option String) (allowlisted : Bool)
  | result (r : EmailSendResultV1)
deriving DecidableEq, Repr

/-- The `mailgun` argument of index.ts `startXmtpOutboundLoop`. -/
structure MailgunCfg where
  apiKey : String
  domain : String
  «from» : String
deriving DecidableEq, Repr

/-- mailgunSend.ts `MailgunSendEmailInput`.  `subject` is optional here
because the handler forwards the schema's optional `subject` unchanged (the
collaborator substitutes `'(no subject)'` for a missing or empty one). -/
structure MailgunSendEmailInput where
  apiKey : String
  domain : String
  «from» : String
  «to» : List String
  cc : List String
  bcc : List String
  subject : Option String
  text : Option String
  html : Option String
  replyTo : Option String
deriving DecidableEq, Repr

/-- Behavior of one `await sendEmailViaMailgun(...)` call: resolves with the
transport id (`result.id`, possibly absent) or throws with a message. -/
inductive SendOutcome where
  | success (mailgunId : Option String)
  | failure (errMsg : String)
deriving DecidableEq, Repr

/-- Externally observable steps of one outbound handler invocation, in program
order: store writes, the email-send collaborator call, and replies. -/
inductive Event where
  | dbInsertOutbound (input : OutboundInsertInput)
  | dbUpdateOutbound (xmtpMsgId : String) (update : OutboundStatusUpdate) (updatedAt : String)
  | mailgunSend (input : MailgunSendEmailInput)
  | reply (r : Reply)
deriving DecidableEq, Repr

/-- Effect of one handler event on the store (collaborator calls and replies
do not touch the store). -/
def applyEvent (db : RelayDb) : Event → RelayDb
  | Event.dbInsertOutbound input => (db.insertOutboundRequest input).1
  | Event.dbUpdateOutbound xid u t => db.updateOutboundRequestStatus xid u t
  | Event.mailgunSend _ => db
  | Event.reply _ => db

/-- Effect of a handler event sequence on the store, applied in order. -/
def applyEvents (db : RelayDb) (evs : List Event) : RelayDb :=
  evs.foldl applyEvent db

/-- The fields of a `DecodedMessage` the handler reads; `content` is `none`
when the decoded content is not a string (`typeof message.content !==
'string'`). -/
structure XmtpMessage where
  id : String
  senderInboxId : String
  content : Option String
deriving DecidableEq, Repr

/-- JavaScript `s || null` on a nullable string: `null` and `""` collapse to
`null`. -/
def jsOrNull : Option String → Option String
  | some s => if s != "" then some s else none
  | none => none

/-- index.ts `handleXmtpMessage`, as the list of observable events of one
invocation.  `conversationFound` models `getConversationById` returning a
conversation (the invocation aborts when it does not); `parse` is the JSON
classification outcome of the trimmed content; `sendOutcome` is the Mailgun
collaborator's behavior; `now` stands for the wall clock (the source takes a
fresh `new Date().toISOString()` at each use; a single value is passed here
since no property depends on timestamps being distinct).  Consent updates and
log lines are elided. -/
def handleXmtpMessage (db : RelayDb) (botInboxId : String) (msg : XmtpMessage)
    (mailgun : MailgunCfg) (conversationFound : Bool) (parse : ParseOutcome)
    (sendOutcome : SendOutcome) (now : String) : List Event :=
  if jsToLower msg.senderInboxId == jsToLower botInboxId then []
  else
    match msg.content with
    | none => []
    | some raw =>
      if !conversationFound then []
      else
        let content := jsTrim raw
        if content == "" then []
        else
          let allowlisted := db.isAllowlisted (jsToLower msg.senderInboxId)
          if isGreetingMessage content then [Event.reply (Reply.intro allowlisted)]
          else
            match parse with
            | ParseOutcome.nonJson => [Event.reply (Reply.intro allowlisted)]
            | ParseOutcome.wrongType t => [Event.reply (Reply.unknownType t allowlisted)]
            | ParseOutcome.invalidPayload =>
                if !allowlisted then
                  [Event.reply (Reply.result
                    (makeEmailSendResultV1 false none (some "not_allowlisted")))]
                else
                  [Event.reply (Reply.result
                    (makeEmailSendResultV1 false none (some "invalid_payload")))]
            | ParseOutcome.valid request =>
                if !allowlisted then
                  [Event.reply (Reply.result
                    (makeEmailSendResultV1 false none (some "not_allowlisted")))]
                else
                  match db.getOutboundRequestByXmtpMsgId msg.id with
                  | some existing =>
                      if existing.status == OutboundStatus.sent then
                        [Event.reply (Reply.result
                          (makeEmailSendResultV1 true existing.mailgun_id none))]
                      else if existing.status == OutboundStatus.failed then
                        [Event.reply (Reply.result
                          (makeEmailSendResultV1 false existing.mailgun_id existing.error))]
                      else
                        [Event.reply (Reply.result
                          (makeEmailSendResultV1 false none (some "already_processing")))]
                  | none =>
                      let insertInput : OutboundInsertInput :=
                        { xmtpMsgId := msg.id
                          fromInbox := jsToLower msg.senderInboxId
                          «to» := request.«to»
                          cc := request.cc
                          bcc := request.bcc
                          subject := jsOrNull request.subject
                          text := request.text
                          html := request.html
                          createdAt := now }
                      let sendInput : MailgunSendEmailInput :=
                        { apiKey := mailgun.apiKey
                          domain := mailgun.domain
                          «from» := mailgun.«from»
                          «to» := request.«to»
                          cc := request.cc
                          bcc := request.bcc
                          subject := request.subject
                          text := request.text
                          html := request.html
                          replyTo := request.replyTo }
                      Event.dbInsertOutbound insertInput ::
                      Event.dbUpdateOutbound msg.id
                        { status := OutboundStatus.sending, mailgunId := none, error := none }
                        now ::
                      Event.mailgunSend sendInput ::
                      (match sendOutcome with
                       | SendOutcome.success mid =>
                           [Event.dbUpdateOutbound msg.id
                              { status := OutboundStatus.sent, mailgunId := some mid,
                                error := some none }
                              now,
                            Event.reply (Reply.result (makeEmailSendResultV1 true mid none))]
                       | SendOutcome.failure errMsg =>
                           [Event.dbUpdateOutbound msg.id
                              { status := OutboundStatus.failed, mailgunId := none,
                                error := some (some errMsg) }
                              now,
                            Event.reply (Reply.result
                              (makeEmailSendResultV1 false none (some errMsg)))])

/-- queue.ts `DedupingQueue`: FIFO list with O(1) membership dedup; the
mirror `Set` always holds exactly the listed items, so it is modeled by list
membership. -/
structure DedupingQueue where
  items : List Nat
deriving DecidableEq, Repr

/-- queue.ts `enqueue`: no-op when the item is already pending. -/
def DedupingQueue.enqueue (q : DedupingQueue) (item : Nat) : DedupingQueue :=
  if q.items.contains item then q else { items := q.items ++ [item] }

/-- queue.ts `dequeue`: pop from the front, `none` when empty. -/
def DedupingQueue.dequeue (q : DedupingQueue) : Option Nat × DedupingQueue :=
  match q.items with
  | [] => (none, q)
  | x :: xs => (some x, { items := xs })

/-- The `email.inbound.v1` payload the delivery worker builds from a row
(index.ts lines 135–144). -/
structure InboundPayloadV1 where
  type : String
  «to» : String
  «from» : String
  subject : String
  text : Option String
  html : Option String
  messageId : Option String
  receivedAt : String
deriving DecidableEq, Repr

/-- index.ts: the payload literal of the worker loop (`subject: row.subject ??
''`). -/
def buildInboundPayload (row : InboundEmailRow) : InboundPayloadV1 :=
  { type := "email.inbound.v1"
    «to» := row.«to»
    «from» := row.«from»
    subject := row.subject.getD ""
    text := row.text
    html := row.html
    messageId := row.message_id
    receivedAt := row.received_at }

/-- Externally observable steps of one inbound delivery worker iteration. -/
inductive WorkerEvent where
  | conversationSend (payload : InboundPayloadV1) (ok : Bool)
  | dbMarkSent (id : Nat) (sentAt : String)
  | requeue (id : Nat)
deriving DecidableEq, Repr

/-- One iteration of the index.ts `startInboundDeliveryWorker` loop body:
dequeue; on empty, sleep (no events).  On a dequeued id: re-fetch the row;
discard when missing or `row.xmtp_sent_at` is truthy.  Otherwise attempt the
conversation send (`sendOk` models whether `getDeanConversation` +
`conversation.send` succeed); on success `markInboundEmailSent`, on failure
re-enqueue the same id (then back off). -/
def workerStep (db : RelayDb) (q : DedupingQueue) (sendOk : Bool) (now : String) :
    RelayDb × DedupingQueue × List WorkerEvent :=
  match q.dequeue with
  | (none, q') => (db, q', [])
  | (some id, q') =>
    match db.getInboundEmailById id with
    | none => (db, q', [])
    | some row =>
      if jsTruthy row.xmtp_sent_at then (db, q', [])
      else
        let payload := buildInboundPayload row
        if sendOk then
          (db.markInboundEmailSent row.id now, q',
            [WorkerEvent.conversationSend payload true, WorkerEvent.dbMarkSent row.id now])
        else
          (db, q'.enqueue row.id,
            [WorkerEvent.conversationSend payload false, WorkerEvent.requeue row.id])

/-- The `OutboundInsertInput` the handler builds for a fresh request
(index.ts lines 289–299). -/
def freshInsertInput (msg : XmtpMessage) (req : EmailSendV1) (now : String) :
    OutboundInsertInput :=
  { xmtpMsgId := msg.id
    fromInbox := jsToLower msg.senderInboxId
    «to» := req.«to»
    cc := req.cc
    bcc := req.bcc
    subject := jsOrNull req.subject
    text := req.text
    html := req.html
    createdAt := now }

/-- The update the handler issues before the external send:
`{ status: 'sending' }` with no other keys. -/
def sendingUpdate : OutboundStatusUpdate :=
  { status := OutboundStatus.sending, mailgunId := none, error := none }

/-- The `MailgunSendEmailInput` the handler passes to `sendEmailViaMailgun`
(index.ts lines 303–314): `from` comes from the configuration, never from the
request payload. -/
def mailgunInputOf (mailgun : MailgunCfg) (req : EmailSendV1) : MailgunSendEmailInput :=
  { apiKey := mailgun.apiKey
    domain := mailgun.domain
    «from» := mailgun.«from»
    «to» := req.«to»
    cc := req.cc
    bcc := req.bcc
    subject := req.subject
    text := req.text
    html := req.html
    replyTo := req.replyTo }

/-- The terminal status update the handler issues after the send resolves. -/
def terminalUpdate : SendOutcome → OutboundStatusUpdate
  | SendOutcome.success mid =>
      { status := OutboundStatus.sent, mailgunId := some mid, error := some none }
  | SendOutcome.failure errMsg =>
      { status := OutboundStatus.failed, mailgunId := none, error := some (some errMsg) }

/-- The reply the handler sends after the send resolves. -/
def terminalReply : SendOutcome → Reply
  | SendOutcome.success mid => Reply.result (makeEmailSendResultV1 true mid none)
  | SendOutcome.failure errMsg => Reply.result (makeEmailSendResultV1 false none (some errMsg))

/-- The event sequence of a fresh allowlisted valid request: insert, `sending`
update, external send, terminal update, result reply. -/
def freshEvents (msg : XmtpMessage) (mailgun : MailgunCfg) (req : EmailSendV1)
    (outcome : SendOutcome) (now : String) : List Event :=
  [Event.dbInsertOutbound (freshInsertInput msg req now),
   Event.dbUpdateOutbound msg.id sendingUpdate now,
   Event.mailgunSend (mailgunInputOf mailgun req),
   Event.dbUpdateOutbound msg.id (terminalUpdate outcome) now,
   Event.reply (terminalReply outcome)]

/-- The reply of the idempotency-check branch on an existing row
(index.ts lines 271–286). -/
def cachedReply (existing : OutboundRequestRow) : Reply :=
  if existing.status == OutboundStatus.sent then
    Reply.result (makeEmailSendResultV1 true existing.mailgun_id none)
  else if existing.status == OutboundStatus.failed then
    Reply.result (makeEmailSendResultV1 false existing.mailgun_id existing.error)
  else
    Reply.result (makeEmailSendResultV1 false none (some "already_processing"))

/-- The row `insertOutboundRequest` appends when the id is absent. -/
def insertedRow (db : RelayDb) (input : OutboundInsertInput) : OutboundRequestRow :=
  { id := db.nextOutboundId
    xmtp_msg_id := input.xmtpMsgId
    from_inbox := input.fromInbox
    to_email := input.«to»
    cc_email := input.cc
    bcc_email := input.bcc
    subject := input.subject
    text := input.text
    html := input.html
    status := OutboundStatus.received
    mailgun_id := none
    error := none
    created_at := input.createdAt
    updated_at := input.createdAt }

/-- The per-row effect of `updateOutboundRequestStatus` on a matching row. -/
def updApply (u : OutboundStatusUpdate) (t : String) (r : OutboundRequestRow) :
    OutboundRequestRow :=
  { r with
    status := u.status
    mailgun_id := sqlCoalesce (jsNullishToNull u.mailgunId) r.mailgun_id
    error := sqlCoalesce (jsNullishToNull u.error) r.error
    updated_at := t }

/-- Recognizer of email-send collaborator calls among handler events. -/
def Event.isMailgunSend : Event → Bool
  | Event.mailgunSend _ => true
  | _ => false

/-- Recognizer of outbound-request row creations among handler events. -/
def Event.isDbInsertOutbound : Event → Bool
  | Event.dbInsertOutbound _ => true
  | _ => false

/-- Number of email-send collaborator calls in an event sequence. -/
def countMailgunSends (evs : List Event) : Nat :=
  evs.countP Event.isMailgunSend

lemma getOutbound_eq_none_iff (db : RelayDb) (x : String) :
    db.getOutboundRequestByXmtpMsgId x = none ↔
      ∀ r ∈ db.outbound, (r.xmtp_msg_id == x) = false := by
  constructor
  · intro h r hr
    have := List.find?_eq_none.mp h r hr
    simpa using this
  · intro h
    exact List.find?_eq_none.mpr (fun r hr => by simp [h r hr])

lemma insertOutboundRequest_fst_of_absent (db : RelayDb) (input : OutboundInsertInput)
    (h : db.getOutboundRequestByXmtpMsgId input.xmtpMsgId = none) :
    (db.insertOutboundRequest input).1 =
      { db with
        outbound := db.outbound ++ [insertedRow db input]
        nextOutboundId := db.nextOutboundId + 1 } := by
  have hall := (getOutbound_eq_none_iff db input.xmtpMsgId).mp h
  have hany : db.outbound.any (fun r => r.xmtp_msg_id == input.xmtpMsgId) = false := by
    simp only [List.any_eq_false]
    intro r hr
    simp [hall r hr]
  simp only [RelayDb.insertOutboundRequest, hany]
  rfl

lemma getOutbound_insert_self (db : RelayDb) (input : OutboundInsertInput)
    (h : db.getOutboundRequestByXmtpMsgId input.xmtpMsgId = none) :
    (db.insertOutboundRequest input).1.getOutboundRequestByXmtpMsgId input.xmtpMsgId =
      some (insertedRow db input) := by
  rw [insertOutboundRequest_fst_of_absent db input h]
  simp only [RelayDb.getOutboundRequestByXmtpMsgId] at h ⊢
  rw [List.find?_append, h]
  simp [insertedRow]

lemma getOutbound_insert_other (db : RelayDb) (input : OutboundInsertInput) (y : String)
    (hy : y ≠ input.xmtpMsgId) :
    (db.insertOutboundRequest input).1.getOutboundRequestByXmtpMsgId y =
      db.getOutboundRequestByXmtpMsgId y := by
  simp only [RelayDb.insertOutboundRequest]
  cases hany : db.outbound.any (fun r => r.xmtp_msg_id == input.xmtpMsgId) with
  | true => simp
  | false =>
      simp only [Bool.false_eq_true, if_false]
      simp only [RelayDb.getOutboundRequestByXmtpMsgId, List.find?_append]
      have hne : ((insertedRow db input).xmtp_msg_id == y) = false := by
        have : input.xmtpMsgId ≠ y := fun hc => hy hc.symm
        simpa [insertedRow] using this
      have hne2 : input.xmtpMsgId ≠ y := fun hc => hy hc.symm
      simp [hne, hne2]

lemma updateOutbound_eq_map (db : RelayDb) (x : String) (u : OutboundStatusUpdate)
    (t : String) :
    db.updateOutboundRequestStatus x u t =
      { db with
        outbound := db.outbound.map (fun r =>
          if r.xmtp_msg_id == x then updApply u t r else r) } := rfl

lemma getOutbound_update (db : RelayDb) (x y : String) (u : OutboundStatusUpdate)
    (t : String) :
    (db.updateOutboundRequestStatus x u t).getOutboundRequestByXmtpMsgId y =
      (db.getOutboundRequestByXmtpMsgId y).map (fun r =>
        if r.xmtp_msg_id == x then updApply u t r else r) := by
  simp only [updateOutbound_eq_map, RelayDb.getOutboundRequestByXmtpMsgId]
  rw [List.find?_map]
  have hp : ((fun r : OutboundRequestRow => r.xmtp_msg_id == y) ∘ fun r =>
      if r.xmtp_msg_id == x then updApply u t r else r) =
      (fun r : OutboundRequestRow => r.xmtp_msg_id == y) := by
    funext r
    by_cases hx : (r.xmtp_msg_id == x) = true
    · simp [Function.comp, hx, updApply]
    · simp only [Bool.not_eq_true] at hx
      simp [Function.comp, hx]
  rw [hp]

lemma applyEvents_nil (db : RelayDb) : applyEvents db [] = db := rfl

lemma applyEvents_cons (db : RelayDb) (e : Event) (es : List Event) :
    applyEvents db (e :: es) = applyEvents (applyEvent db e) es := rfl

lemma applyEvents_append (db : RelayDb) (l1 l2 : List Event) :
    applyEvents db (l1 ++ l2) = applyEvents (applyEvents db l1) l2 := by
  simp [applyEvents, List.foldl_append]

/-- Every handler invocation either does nothing, sends a single reply, or —
exactly when the payload is valid, the sender allowlisted and the message id
fresh — runs the full fresh-send sequence. -/
lemma handleXmtpMessage_shape (db : RelayDb) (bot : String) (msg : XmtpMessage)
    (mailgun : MailgunCfg) (conv : Bool) (parse : ParseOutcome) (outcome : SendOutcome)
    (now : String) :
    handleXmtpMessage db bot msg mailgun conv parse outcome now = [] ∨
    (∃ r, handleXmtpMessage db bot msg mailgun conv parse outcome now = [Event.reply r]) ∨
    (∃ req, parse = ParseOutcome.valid req ∧
      db.isAllowlisted (jsToLower msg.senderInboxId) = true ∧
      db.getOutboundRequestByXmtpMsgId msg.id = none ∧
      handleXmtpMessage db bot msg mailgun conv parse outcome now =
        freshEvents msg mailgun req outcome now) := by
  simp only [handleXmtpMessage]
  split
  · exact Or.inl rfl
  split
  · exact Or.inl rfl
  split
  · exact Or.inl rfl
  split
  · exact Or.inl rfl
  split
  · exact Or.inr (Or.inl ⟨_, rfl⟩)
  split
  · exact Or.inr (Or.inl ⟨_, rfl⟩)
  · exact Or.inr (Or.inl ⟨_, rfl⟩)
  · split
    · exact Or.inr (Or.inl ⟨_, rfl⟩)
    · exact Or.inr (Or.inl ⟨_, rfl⟩)
  · rename_i request
    split
    · exact Or.inr (Or.inl ⟨_, rfl⟩)
    rename_i hnotallow
    have hallow : db.isAllowlisted (jsToLower msg.senderInboxId) = true := by
      revert hnotallow
      cases db.isAllowlisted (jsToLower msg.senderInboxId) <;> simp
    split
    · refine Or.inr (Or.inl ?_)
      split
      · exact ⟨_, rfl⟩
      split
      · exact ⟨_, rfl⟩
      · exact ⟨_, rfl⟩
    · rename_i hget
      refine Or.inr (Or.inr ⟨request, rfl, hallow, hget, ?_⟩)
      cases outcome with
      | success mid =>
          simp [freshEvents, freshInsertInput, sendingUpdate,
            mailgunInputOf, terminalUpdate, terminalReply]
      | failure errMsg =>
          simp [freshEvents, freshInsertInput, sendingUpdate,
            mailgunInputOf, terminalUpdate, terminalReply]

lemma jsNullishToNull_some (a : Option String) : jsNullishToNull (some a) = a := by
  cases a <;> rfl

lemma sqlCoalesce_none_right (a : Option String) : sqlCoalesce a none = a := by
  cases a <;> rfl

/-- The handler on the fresh allowlisted valid path: the exact event list. -/
lemma handleXmtpMessage_valid_fresh (db : RelayDb) (bot : String) (msg : XmtpMessage)
    (raw : String) (mailgun : MailgunCfg) (req : EmailSendV1) (outcome : SendOutcome)
    (now : String)
    (hbot : (jsToLower msg.senderInboxId == jsToLower bot) = false)
    (hcontent : msg.content = some raw)
    (hne : (jsTrim raw == "") = false)
    (hgreet : isGreetingMessage (jsTrim raw) = false)
    (hallow : db.isAllowlisted (jsToLower msg.senderInboxId) = true)
    (hget : db.getOutboundRequestByXmtpMsgId msg.id = none) :
    handleXmtpMessage db bot msg mailgun true (ParseOutcome.valid req) outcome now =
      freshEvents msg mailgun req outcome now := by
  simp only [handleXmtpMessage, hbot, hcontent, hne, hgreet, hallow, hget]
  cases outcome with
  | success mid =>
      simp [freshEvents, freshInsertInput, sendingUpdate, mailgunInputOf,
        terminalUpdate, terminalReply]
  | failure errMsg =>
      simp [freshEvents, freshInsertInput, sendingUpdate, mailgunInputOf,
        terminalUpdate, terminalReply]

/-- The handler on the valid path with an existing row: the single cached
reply and nothing else. -/
lemma handleXmtpMessage_valid_existing (db : RelayDb) (bot : String) (msg : XmtpMessage)
    (raw : String) (mailgun : MailgunCfg) (req : EmailSendV1) (outcome : SendOutcome)
    (now : String) (existing : OutboundRequestRow)
    (hbot : (jsToLower msg.senderInboxId == jsToLower bot) = false)
    (hcontent : msg.content = some raw)
    (hne : (jsTrim raw == "") = false)
    (hgreet : isGreetingMessage (jsTrim raw) = false)
    (hallow : db.isAllowlisted (jsToLower msg.senderInboxId) = true)
    (hget : db.getOutboundRequestByXmtpMsgId msg.id = some existing) :
    handleXmtpMessage db bot msg mailgun true (ParseOutcome.valid req) outcome now =
      [Event.reply (cachedReply existing)] := by
  simp only [handleXmtpMessage, hbot, hcontent, hne, hgreet, hallow, hget]
  by_cases h1 : (existing.status == OutboundStatus.sent) = true
  · simp [cachedReply, h1]
  · simp only [Bool.not_eq_true] at h1
    by_cases h2 : (existing.status == OutboundStatus.failed) = true
    · simp [cachedReply, h1, h2]
    · simp only [Bool.not_eq_true] at h2
      simp [cachedReply, h1, h2]

/-- The row stored for the message id after the fresh-send event sequence. -/
def finalRow (db : RelayDb) (msg : XmtpMessage) (req : EmailSendV1) (outcome : SendOutcome)
    (now : String) : OutboundRequestRow :=
  updApply (terminalUpdate outcome) now
    (updApply sendingUpdate now (insertedRow db (freshInsertInput msg req now)))

lemma applyEvents_freshEvents (db : RelayDb) (msg : XmtpMessage) (mailgun : MailgunCfg)
    (req : EmailSendV1) (outcome : SendOutcome) (now : String) :
    applyEvents db (freshEvents msg mailgun req outcome now) =
      ((db.insertOutboundRequest (freshInsertInput msg req now)).1.updateOutboundRequestStatus
          msg.id sendingUpdate now).updateOutboundRequestStatus
        msg.id (terminalUpdate outcome) now := rfl

lemma getOutbound_after_freshEvents (db : RelayDb) (msg : XmtpMessage) (mailgun : MailgunCfg)
    (req : EmailSendV1) (outcome : SendOutcome) (now : String)
    (hget : db.getOutboundRequestByXmtpMsgId msg.id = none) :
    (applyEvents db (freshEvents msg mailgun req outcome now)).getOutboundRequestByXmtpMsgId
        msg.id = some (finalRow db msg req outcome now) := by
  rw [applyEvents_freshEvents, getOutbound_update, getOutbound_update]
  have hself : (db.insertOutboundRequest
      (freshInsertInput msg req now)).1.getOutboundRequestByXmtpMsgId msg.id =
      some (insertedRow db (freshInsertInput msg req now)) :=
    getOutbound_insert_self db (freshInsertInput msg req now) hget
  rw [hself]
  simp only [Option.map_some']
  have hxid : (insertedRow db (freshInsertInput msg req now)).xmtp_msg_id = msg.id := rfl
  have hxid2 : (updApply sendingUpdate now
      (insertedRow db (freshInsertInput msg req now))).xmtp_msg_id = msg.id := rfl
  simp [hxid, hxid2, finalRow, updApply]

lemma finalRow_fields (db : RelayDb) (msg : XmtpMessage) (req : EmailSendV1) (now : String) :
    (∀ mid, (finalRow db msg req (SendOutcome.success mid) now).status = OutboundStatus.sent ∧
      (finalRow db msg req (SendOutcome.success mid) now).mailgun_id = mid ∧
      (finalRow db msg req (SendOutcome.success mid) now).error = none) ∧
    (∀ errMsg,
      (finalRow db msg req (SendOutcome.failure errMsg) now).status = OutboundStatus.failed ∧
      (finalRow db msg req (SendOutcome.failure errMsg) now).mailgun_id = none ∧
      (finalRow db msg req (SendOutcome.failure errMsg) now).error = some errMsg) := by
  constructor
  · intro mid
    refine ⟨rfl, ?_, rfl⟩
    cases mid <;> rfl
  · intro errMsg
    exact ⟨rfl, rfl, rfl⟩

lemma applyEvent_allowlist (db : RelayDb) (e : Event) :
    (applyEvent db e).allowlist = db.allowlist := by
  cases e with
  | dbInsertOutbound input =>
      simp only [applyEvent, RelayDb.insertOutboundRequest]
      split <;> rfl
  | dbUpdateOutbound x u t => rfl
  | mailgunSend _ => rfl
  | reply _ => rfl

lemma applyEvents_allowlist (db : RelayDb) (evs : List Event) :
    (applyEvents db evs).allowlist = db.allowlist := by
  induction evs generalizing db with
  | nil => rfl
  | cons e es ih => rw [applyEvents_cons, ih, applyEvent_allowlist]

lemma isAllowlisted_applyEvents (db : RelayDb) (evs : List Event) (x : String) :
    (applyEvents db evs).isAllowlisted x = db.isAllowlisted x := by
  simp [RelayDb.isAllowlisted, applyEvents_allowlist]

lemma cachedReply_finalRow (db : RelayDb) (msg : XmtpMessage) (req : EmailSendV1)
    (outcome : SendOutcome) (now : String) :
    cachedReply (finalRow db msg req outcome now) = terminalReply outcome := by
  cases outcome with
  | success mid => cases mid <;> rfl
  | failure errMsg => rfl

lemma countMailgunSends_freshEvents (msg : XmtpMessage) (mailgun : MailgunCfg)
    (req : EmailSendV1) (outcome : SendOutcome) (now : String) :
    countMailgunSends (freshEvents msg mailgun req outcome now) = 1 := by
  cases outcome <;> rfl

lemma countOutbound_insert_absent (db : RelayDb) (input : OutboundInsertInput)
    (h : db.getOutboundRequestByXmtpMsgId input.xmtpMsgId = none) :
    (db.insertOutboundRequest input).1.outbound.countP
        (fun r => r.xmtp_msg_id == input.xmtpMsgId) =
      db.outbound.countP (fun r => r.xmtp_msg_id == input.xmtpMsgId) + 1 := by
  rw [insertOutboundRequest_fst_of_absent db input h]
  simp [List.countP_append, insertedRow, List.countP_cons]

lemma countOutbound_update (db : RelayDb) (x y : String) (u : OutboundStatusUpdate)
    (t : String) :
    (db.updateOutboundRequestStatus x u t).outbound.countP
        (fun r => r.xmtp_msg_id == y) =
      db.outbound.countP (fun r => r.xmtp_msg_id == y) := by
  rw [updateOutbound_eq_map]
  show (db.outbound.map _).countP _ = _
  rw [List.countP_map]
  congr 1
  funext r
  by_cases hx : (r.xmtp_msg_id == x) = true
  · simp [Function.comp, hx, updApply]
  · simp only [Bool.not_eq_true] at hx
    simp [Function.comp, hx]

lemma countOutbound_zero_of_none (db : RelayDb) (x : String)
    (h : db.getOutboundRequestByXmtpMsgId x = none) :
    db.outbound.countP (fun r => r.xmtp_msg_id == x) = 0 := by
  rw [List.countP_eq_zero]
  intro r hr
  have := (getOutbound_eq_none_iff db x).mp h r hr
  simp [this]

/-- C1: for a fixed XMTP message id (allowlisted sender, valid `email.send.v1`
payload, id not yet recorded), two sequential handler invocations produce
exactly one email-send collaborator call; the second invocation's only event
is a reply equal to the first invocation's terminal result reply (same
`mailgunId` on success, same `error` on failure); the store afterwards holds
exactly one outbound-request row for the id; and on any store whose row for
the id is still `received` or `sending`, the handler replies
`already_processing` and does nothing else. -/
theorem outbound_handler_idempotent (db : RelayDb) (bot : String) (msg : XmtpMessage)
    (raw : String) (mailgun : MailgunCfg) (req : EmailSendV1)
    (outcome1 outcome2 : SendOutcome) (now1 now2 : String)
    (hbot : (jsToLower msg.senderInboxId == jsToLower bot) = false)
    (hcontent : msg.content = some raw)
    (hne : (jsTrim raw == "") = false)
    (hgreet : isGreetingMessage (jsTrim raw) = false)
    (hallow : db.isAllowlisted (jsToLower msg.senderInboxId) = true)
    (hget : db.getOutboundRequestByXmtpMsgId msg.id = none) :
    countMailgunSends
        (handleXmtpMessage db bot msg mailgun true (ParseOutcome.valid req) outcome1 now1 ++
          handleXmtpMessage
            (applyEvents db
              (handleXmtpMessage db bot msg mailgun true (ParseOutcome.valid req) outcome1 now1))
            bot msg mailgun true (ParseOutcome.valid req) outcome2 now2) = 1 ∧
    (∃ r : Reply,
      Event.reply r ∈
          handleXmtpMessage db bot msg mailgun true (ParseOutcome.valid req) outcome1 now1 ∧
      handleXmtpMessage
          (applyEvents db
            (handleXmtpMessage db bot msg mailgun true (ParseOutcome.valid req) outcome1 now1))
          bot msg mailgun true (ParseOutcome.valid req) outcome2 now2 = [Event.reply r] ∧
      (∀ mid, outcome1 = SendOutcome.success mid →
        r = Reply.result (makeEmailSendResultV1 true mid none)) ∧
      (∀ errMsg, outcome1 = SendOutcome.failure errMsg →
        r = Reply.result (makeEmailSendResultV1 false none (some errMsg)))) ∧
    (applyEvents
          (applyEvents db
            (handleXmtpMessage db bot msg mailgun true (ParseOutcome.valid req) outcome1 now1))
          (handleXmtpMessage
            (applyEvents db
              (handleXmtpMessage db bot msg mailgun true (ParseOutcome.valid req) outcome1 now1))
            bot msg mailgun true (ParseOutcome.valid req) outcome2 now2)).outbound.countP
        (fun r => r.xmtp_msg_id == msg.id) = 1 ∧
    (∀ (db' : RelayDb) (existing : OutboundRequestRow),
      db'.isAllowlisted (jsToLower msg.senderInboxId) = true →
      db'.getOutboundRequestByXmtpMsgId msg.id = some existing →
      (existing.status = OutboundStatus.received ∨
        existing.status = OutboundStatus.sending) →
      handleXmtpMessage db' bot msg mailgun true (ParseOutcome.valid req) outcome2 now2 =
        [Event.reply (Reply.result
          (makeEmailSendResultV1 false none (some "already_processing")))]) := by
  have hev1 : handleXmtpMessage db bot msg mailgun true (ParseOutcome.valid req) outcome1 now1 =
      freshEvents msg mailgun req outcome1 now1 :=
    handleXmtpMessage_valid_fresh db bot msg raw mailgun req outcome1 now1
      hbot hcontent hne hgreet hallow hget
  have hget1 : (applyEvents db
      (freshEvents msg mailgun req outcome1 now1)).getOutboundRequestByXmtpMsgId msg.id =
      some (finalRow db msg req outcome1 now1) :=
    getOutbound_after_freshEvents db msg mailgun req outcome1 now1 hget
  have hallow1 : (applyEvents db
      (freshEvents msg mailgun req outcome1 now1)).isAllowlisted
        (jsToLower msg.senderInboxId) = true := by
    rw [isAllowlisted_applyEvents]; exact hallow
  have hev2 : handleXmtpMessage (applyEvents db (freshEvents msg mailgun req outcome1 now1))
      bot msg mailgun true (ParseOutcome.valid req) outcome2 now2 =
      [Event.reply (cachedReply (finalRow db msg req outcome1 now1))] :=
    handleXmtpMessage_valid_existing _ bot msg raw mailgun req outcome2 now2 _
      hbot hcontent hne hgreet hallow1 hget1
  refine ⟨?_, ?_, ?_, ?_⟩
  · rw [hev1, hev2]
    rw [show countMailgunSends
        (freshEvents msg mailgun req outcome1 now1 ++
          [Event.reply (cachedReply (finalRow db msg req outcome1 now1))]) =
        countMailgunSends (freshEvents msg mailgun req outcome1 now1) +
          countMailgunSends [Event.reply (cachedReply (finalRow db msg req outcome1 now1))]
      from List.countP_append _ _ _]
    rw [countMailgunSends_freshEvents]
    rfl
  · refine ⟨cachedReply (finalRow db msg req outcome1 now1), ?_, ?_, ?_, ?_⟩
    · rw [hev1, cachedReply_finalRow]
      cases outcome1 <;> simp [freshEvents]
    · rw [hev1, hev2]
    · intro mid hmid
      subst hmid
      rw [cachedReply_finalRow]
      rfl
    · intro errMsg herr
      subst herr
      rw [cachedReply_finalRow]
      rfl
  · rw [hev1, hev2]
    rw [show applyEvents (applyEvents db (freshEvents msg mailgun req outcome1 now1))
        [Event.reply (cachedReply (finalRow db msg req outcome1 now1))] =
        applyEvents db (freshEvents msg mailgun req outcome1 now1) from rfl]
    rw [applyEvents_freshEvents]
    rw [countOutbound_update, countOutbound_update]
    have : (freshInsertInput msg req now1).xmtpMsgId = msg.id := rfl
    rw [show (fun r : OutboundRequestRow => r.xmtp_msg_id == msg.id) =
        (fun r : OutboundRequestRow => r.xmtp_msg_id == (freshInsertInput msg req now1).xmtpMsgId)
      from rfl]
    rw [countOutbound_insert_absent db (freshInsertInput msg req now1) hget]
    have hz := countOutbound_zero_of_none db msg.id hget
    rw [show (fun r : OutboundRequestRow =>
        r.xmtp_msg_id == (freshInsertInput msg req now1).xmtpMsgId) =
        (fun r : OutboundRequestRow => r.xmtp_msg_id == msg.id) from rfl, hz]
  · intro db' existing hallow' hget' hstat
    rw [handleXmtpMessage_valid_existing db' bot msg raw mailgun req outcome2 now2 existing
      hbot hcontent hne hgreet hallow' hget']
    rcases hstat with h | h <;> simp [cachedReply, h]

/-- Concrete store for witnesses: one allowlisted identity. -/
def wDb : RelayDb :=
  { inbound := [], nextInboundId := 1, outbound := [], nextOutboundId := 1,
    allowlist := ["alice"] }

/-- Concrete message for witnesses. -/
def wMsg : XmtpMessage := { id := "m1", senderInboxId := "alice", content := some "x" }

/-- Concrete Mailgun configuration for witnesses. -/
def wMailgun : MailgunCfg := { apiKey := "k", domain := "d", «from» := "relay@xmtp.mx" }

/-- Concrete validated request for witnesses. -/
def wReq : EmailSendV1 :=
  { «to» := ["a@example.com"], cc := [], bcc := [], subject := none, text := some "hi",
    html := none, replyTo := none }

/-- Witness for C1 at a concrete store, message and outcome. -/
theorem outbound_handler_idempotent_witness :
    countMailgunSends
        (handleXmtpMessage wDb "bot" wMsg wMailgun true (ParseOutcome.valid wReq)
            (SendOutcome.success (some "mg1")) "t1" ++
          handleXmtpMessage
            (applyEvents wDb
              (handleXmtpMessage wDb "bot" wMsg wMailgun true (ParseOutcome.valid wReq)
                (SendOutcome.success (some "mg1")) "t1"))
            "bot" wMsg wMailgun true (ParseOutcome.valid wReq)
            (SendOutcome.success (some "mg2")) "t2") = 1 :=
  (outbound_handler_idempotent wDb "bot" wMsg "x" wMailgun wReq
      (SendOutcome.success (some "mg1")) (SendOutcome.success (some "mg2")) "t1" "t2"
      (by decide) (by decide) (by decide) (by decide) (by decide) (by decide)).1

/-- The handler when the sender is not allowlisted and the content carried
`type: "email.send.v1"`: the single `not_allowlisted` failure reply. -/
lemma handleXmtpMessage_not_allowlisted_typed (db : RelayDb) (bot : String)
    (msg : XmtpMessage) (raw : String) (mailgun : MailgunCfg) (parse : ParseOutcome)
    (outcome : SendOutcome) (now : String)
    (hbot : (jsToLower msg.senderInboxId == jsToLower bot) = false)
    (hcontent : msg.content = some raw)
    (hne : (jsTrim raw == "") = false)
    (hgreet : isGreetingMessage (jsTrim raw) = false)
    (hallow : db.isAllowlisted (jsToLower msg.senderInboxId) = false)
    (htype : parse.isEmailSendV1Type = true) :
    handleXmtpMessage db bot msg mailgun true parse outcome now =
      [Event.reply (Reply.result (makeEmailSendResultV1 false none (some "not_allowlisted")))] := by
  cases parse with
  | nonJson => simp [ParseOutcome.isEmailSendV1Type] at htype
  | wrongType t => simp [ParseOutcome.isEmailSendV1Type] at htype
  | invalidPayload => simp [handleXmtpMessage, hbot, hcontent, hne, hgreet, hallow]
  | valid req => simp [handleXmtpMessage, hbot, hcontent, hne, hgreet, hallow]

/-- C2: a non-allowlisted sender never triggers an email-send collaborator
call and never creates an outbound-request row (the store is untouched), and
on an `email.send.v1`-typed message the handler replies with the
`not_allowlisted` failure result. -/
theorem allowlist_gate (db : RelayDb) (bot : String) (msg : XmtpMessage)
    (mailgun : MailgunCfg) (conv : Bool) (parse : ParseOutcome) (outcome : SendOutcome)
    (now : String)
    (hallow : db.isAllowlisted (jsToLower msg.senderInboxId) = false) :
    (∀ e ∈ handleXmtpMessage db bot msg mailgun conv parse outcome now,
      e.isMailgunSend = false ∧ e.isDbInsertOutbound = false) ∧
    applyEvents db (handleXmtpMessage db bot msg mailgun conv parse outcome now) = db ∧
    (∀ raw, msg.content = some raw →
      conv = true →
      (jsToLower msg.senderInboxId == jsToLower bot) = false →
      (jsTrim raw == "") = false →
      isGreetingMessage (jsTrim raw) = false →
      parse.isEmailSendV1Type = true →
      handleXmtpMessage db bot msg mailgun conv parse outcome now =
        [Event.reply (Reply.result
          (makeEmailSendResultV1 false none (some "not_allowlisted")))]) := by
  have hshape := handleXmtpMessage_shape db bot msg mailgun conv parse outcome now
  rcases hshape with h | ⟨r, h⟩ | ⟨req, _, hallow', _, _⟩
  · refine ⟨?_, ?_, ?_⟩
    · intro e he
      rw [h] at he
      exact absurd he (List.not_mem_nil e)
    · rw [h]; rfl
    · intro raw hcontent hconv hbot hne hgreet htype
      subst hconv
      rw [handleXmtpMessage_not_allowlisted_typed db bot msg raw mailgun parse outcome now
        hbot hcontent hne hgreet hallow htype]
  · refine ⟨?_, ?_, ?_⟩
    · intro e he
      rw [h] at he
      rcases List.mem_singleton.mp he with rfl
      exact ⟨rfl, rfl⟩
    · rw [h]; rfl
    · intro raw hcontent hconv hbot hne hgreet htype
      subst hconv
      rw [handleXmtpMessage_not_allowlisted_typed db bot msg raw mailgun parse outcome now
        hbot hcontent hne hgreet hallow htype]
  · rw [hallow'] at hallow
    exact absurd hallow (by simp)

/-- Witness for C2 at a concrete non-allowlisted store. -/
theorem allowlist_gate_witness :
    handleXmtpMessage RelayDb.empty "bot" wMsg wMailgun true (ParseOutcome.valid wReq)
        (SendOutcome.success (some "mg1")) "t1" =
      [Event.reply (Reply.result (makeEmailSendResultV1 false none (some "not_allowlisted")))] :=
  (allowlist_gate RelayDb.empty "bot" wMsg wMailgun true (ParseOutcome.valid wReq)
      (SendOutcome.success (some "mg1")) "t1" (by decide)).2.2 "x"
    rfl rfl (by decide) (by decide) (by decide) (by decide)

/-- The UNIQUE constraint of `inbound_email.dedupe_key`, as a store invariant. -/
def RelayDb.InboundKeysUnique (db : RelayDb) : Prop :=
  db.inbound.Pairwise (fun a b => a.dedupe_key ≠ b.dedupe_key)

/-- The row `insertInboundEmail` appends on first insertion. -/
def insertedInboundRow (db : RelayDb) (input : InboundEmailInsert) : InboundEmailRow :=
  { id := db.nextInboundId
    dedupe_key := computeInboundDedupeKey input
    mailgun_message_id := input.mailgunMessageId
    message_id := input.messageId
    «from» := input.«from»
    «to» := input.«to»
    subject := input.subject
    text := input.text
    html := input.html
    received_at := input.receivedAt
    xmtp_sent_at := none }

lemma insertInboundEmail_of_absent (db : RelayDb) (input : InboundEmailInsert)
    (h : (db.inbound.any (fun r => r.dedupe_key == computeInboundDedupeKey input)) = false) :
    db.insertInboundEmail input =
      ({ db with
          inbound := db.inbound ++ [insertedInboundRow db input]
          nextInboundId := db.nextInboundId + 1 }, some db.nextInboundId) := by
  simp only [RelayDb.insertInboundEmail, h]
  rfl

lemma insertInboundEmail_of_present (db : RelayDb) (input : InboundEmailInsert)
    (h : (db.inbound.any (fun r => r.dedupe_key == computeInboundDedupeKey input)) = true) :
    db.insertInboundEmail input = (db, none) := by
  simp only [RelayDb.insertInboundEmail, h]
  rfl

lemma countP_dedupe_le_one (l : List InboundEmailRow) (k : DedupeKey)
    (h : l.Pairwise (fun a b => a.dedupe_key ≠ b.dedupe_key)) :
    l.countP (fun r => r.dedupe_key == k) ≤ 1 := by
  induction l with
  | nil => simp
  | cons a t ih =>
      rw [List.countP_cons]
      rcases List.pairwise_cons.mp h with ⟨ha, ht⟩
      by_cases hk : (a.dedupe_key == k) = true
      · have hz : t.countP (fun r => r.dedupe_key == k) = 0 := by
          rw [List.countP_eq_zero]
          intro r hr
          have hne := ha r hr
          rw [beq_iff_eq] at hk
          subst hk
          simp only [beq_iff_eq]
          exact fun hc => hne hc.symm
        rw [hz]
        simp [hk]
      · simp only [Bool.not_eq_true] at hk
        simp only [hk, if_false, Nat.add_zero, cond_false]
        exact ih ht

/-- C3: the inbound-email insert computes the dedupe key and is a no-op
returning the duplicate signal (`none`) when a row with that key exists;
otherwise it returns the fresh AUTOINCREMENT id and adds one row with that
key.  Inserting the same record twice is a no-op the second time and, under
the UNIQUE-constraint invariant, leaves exactly one row with the record's
key. -/
theorem inbound_insert_dedupe (db : RelayDb) (input : InboundEmailInsert) :
    ((∃ r ∈ db.inbound, r.dedupe_key = computeInboundDedupeKey input) →
      db.insertInboundEmail input = (db, none)) ∧
    ((∀ r ∈ db.inbound, r.dedupe_key ≠ computeInboundDedupeKey input) →
      (db.insertInboundEmail input).2 = some db.nextInboundId ∧
      (db.insertInboundEmail input).1.inbound.countP
          (fun r => r.dedupe_key == computeInboundDedupeKey input) =
        db.inbound.countP (fun r => r.dedupe_key == computeInboundDedupeKey input) + 1) ∧
    ((db.insertInboundEmail input).1.insertInboundEmail input =
      ((db.insertInboundEmail input).1, none)) ∧
    (db.InboundKeysUnique →
      ((db.insertInboundEmail input).1.insertInboundEmail input).1.inbound.countP
          (fun r => r.dedupe_key == computeInboundDedupeKey input) = 1) := by
  by_cases hpresent :
      (db.inbound.any (fun r => r.dedupe_key == computeInboundDedupeKey input)) = true
  · have hfst := insertInboundEmail_of_present db input hpresent
    refine ⟨fun _ => hfst, ?_, ?_, ?_⟩
    · intro habsent
      rcases List.any_eq_true.mp hpresent with ⟨r, hr, hkey⟩
      rw [beq_iff_eq] at hkey
      exact absurd hkey (habsent r hr)
    · rw [hfst]
      exact hfst
    · intro huniq
      rw [hfst]
      have hsnd : ((db, (none : Option Nat)).1.insertInboundEmail input) = (db, none) := hfst
      rw [hsnd]
      show db.inbound.countP (fun r => r.dedupe_key == computeInboundDedupeKey input) = 1
      rcases List.any_eq_true.mp hpresent with ⟨r, hr, hkey⟩
      have hpos : 0 < db.inbound.countP (fun r => r.dedupe_key == computeInboundDedupeKey input) :=
        List.countP_pos_iff.mpr ⟨r, hr, hkey⟩
      have hle := countP_dedupe_le_one db.inbound (computeInboundDedupeKey input) huniq
      omega
  · have habs : (db.inbound.any (fun r => r.dedupe_key == computeInboundDedupeKey input)) = false := by
      revert hpresent
      cases db.inbound.any (fun r => r.dedupe_key == computeInboundDedupeKey input) <;> simp
    have hfst := insertInboundEmail_of_absent db input habs
    have hzero : db.inbound.countP (fun r => r.dedupe_key == computeInboundDedupeKey input) = 0 := by
      rw [List.countP_eq_zero]
      intro r hr
      exact List.any_eq_false.mp habs r hr
    have hany2 : (((db.insertInboundEmail input).1).inbound.any
        (fun r => r.dedupe_key == computeInboundDedupeKey input)) = true := by
      rw [hfst]
      show ((db.inbound ++ [insertedInboundRow db input]).any
        (fun r => r.dedupe_key == computeInboundDedupeKey input)) = true
      rw [List.any_append]
      simp [insertedInboundRow]
    refine ⟨?_, ?_, ?_, ?_⟩
    · intro ⟨r, hr, hkey⟩
      have hx : db.inbound.any (fun r => r.dedupe_key == computeInboundDedupeKey input) = true :=
        List.any_eq_true.mpr ⟨r, hr, by simp [hkey]⟩
      rw [hx] at habs
      exact absurd habs (by simp)
    · intro _
      rw [hfst]
      refine ⟨rfl, ?_⟩
      show (db.inbound ++ [insertedInboundRow db input]).countP
          (fun r => r.dedupe_key == computeInboundDedupeKey input) = _
      rw [List.countP_append]
      simp [insertedInboundRow, List.countP_cons]
    · exact insertInboundEmail_of_present _ input hany2
    · intro _
      rw [insertInboundEmail_of_present _ input hany2]
      rw [hfst]
      show (db.inbound ++ [insertedInboundRow db input]).countP
          (fun r => r.dedupe_key == computeInboundDedupeKey input) = 1
      rw [List.countP_append, hzero]
      simp [insertedInboundRow, List.countP_cons]

/-- Concrete inbound record for witnesses (no transport ids). -/
def wIns : InboundEmailInsert :=
  { mailgunMessageId := none, messageId := none, «from» := "a@x.com", «to» := "dean@xmtp.mx",
    subject := some "s", text := some "body", html := none, receivedAt := "2026-01-01" }

/-- Witness for C3: inserting the same record twice at a concrete store. -/
theorem inbound_insert_dedupe_witness :
    ((RelayDb.empty.insertInboundEmail wIns).1.insertInboundEmail wIns).1.inbound.countP
        (fun r => r.dedupe_key == computeInboundDedupeKey wIns) = 1 :=
  (inbound_insert_dedupe RelayDb.empty wIns).2.2.2
    (by simp [RelayDb.InboundKeysUnique, RelayDb.empty])

/-- C5: whenever a handler invocation reaches the external send, the store
state obtained by applying exactly the events preceding the
`sendEmailViaMailgun` call already holds the row for the message id with
status `sending`. -/
theorem sending_durable_before_send (db : RelayDb) (bot : String) (msg : XmtpMessage)
    (mailgun : MailgunCfg) (conv : Bool) (parse : ParseOutcome) (outcome : SendOutcome)
    (now : String) (l1 l2 : List Event) (inp : MailgunSendEmailInput)
    (h : handleXmtpMessage db bot msg mailgun conv parse outcome now =
      l1 ++ Event.mailgunSend inp :: l2) :
    ∃ row, (applyEvents db l1).getOutboundRequestByXmtpMsgId msg.id = some row ∧
      row.status = OutboundStatus.sending := by
  rcases handleXmtpMessage_shape db bot msg mailgun conv parse outcome now with
    hsh | ⟨r, hsh⟩ | ⟨req, hparse, hallow, hget, hsh⟩
  · rw [hsh] at h
    exact absurd h.symm (by simp)
  · rw [hsh] at h
    rcases l1 with _ | ⟨a, l1⟩
    · simp at h
    · simp at h
  · rw [hsh] at h
    simp only [freshEvents] at h
    rcases l1 with _ | ⟨a, l1⟩
    · simp at h
    rcases l1 with _ | ⟨b, l1⟩
    · simp at h
    rcases l1 with _ | ⟨c, l1⟩
    · -- l1 = [a, b]: the events before the send are the insert and the
      -- `sending` update
      simp only [List.cons_append, List.nil_append, List.cons.injEq] at h
      rcases h with ⟨ha, hb, -, -⟩
      subst ha
      subst hb
      refine ⟨updApply sendingUpdate now (insertedRow db (freshInsertInput msg req now)), ?_, rfl⟩
      rw [show applyEvents db
          [Event.dbInsertOutbound (freshInsertInput msg req now),
           Event.dbUpdateOutbound msg.id sendingUpdate now] =
          ((db.insertOutboundRequest (freshInsertInput msg req now)).1).updateOutboundRequestStatus
            msg.id sendingUpdate now from rfl]
      rw [getOutbound_update]
      have hself : (db.insertOutboundRequest
          (freshInsertInput msg req now)).1.getOutboundRequestByXmtpMsgId msg.id =
          some (insertedRow db (freshInsertInput msg req now)) :=
        getOutbound_insert_self db (freshInsertInput msg req now) hget
      rw [hself]
      simp [insertedRow, freshInsertInput]
    rcases l1 with _ | ⟨d, l1⟩
    · simp at h
    rcases l1 with _ | ⟨e, l1⟩
    · simp at h
    · simp at h

/-- Witness for C5 at a concrete invocation reaching the send. -/
theorem sending_durable_before_send_witness :
    ∃ row,
      (applyEvents wDb
          [Event.dbInsertOutbound (freshInsertInput wMsg wReq "t1"),
           Event.dbUpdateOutbound wMsg.id sendingUpdate "t1"]).getOutboundRequestByXmtpMsgId
        wMsg.id = some row ∧ row.status = OutboundStatus.sending :=
  sending_durable_before_send wDb "bot" wMsg wMailgun true (ParseOutcome.valid wReq)
    (SendOutcome.success (some "mg1")) "t1"
    [Event.dbInsertOutbound (freshInsertInput wMsg wReq "t1"),
     Event.dbUpdateOutbound wMsg.id sendingUpdate "t1"]
    [Event.dbUpdateOutbound wMsg.id (terminalUpdate (SendOutcome.success (some "mg1"))) "t1",
     Event.reply (terminalReply (SendOutcome.success (some "mg1")))]
    (mailgunInputOf wMailgun wReq) (by decide)

/-- Any email-send collaborator call the handler makes carries exactly the
input built from the configuration and the validated request. -/
lemma mailgunSend_mem_handle (db : RelayDb) (bot : String) (msg : XmtpMessage)
    (mailgun : MailgunCfg) (conv : Bool) (parse : ParseOutcome) (outcome : SendOutcome)
    (now : String) (inp : MailgunSendEmailInput)
    (h : Event.mailgunSend inp ∈ handleXmtpMessage db bot msg mailgun conv parse outcome now) :
    ∃ req, parse = ParseOutcome.valid req ∧ inp = mailgunInputOf mailgun req := by
  rcases handleXmtpMessage_shape db bot msg mailgun conv parse outcome now with
    hsh | ⟨r, hsh⟩ | ⟨req, hparse, hallow, hget, hsh⟩
  · rw [hsh] at h
    exact absurd h (List.not_mem_nil _)
  · rw [hsh] at h
    rcases List.mem_singleton.mp h with h'
    exact absurd h' (by simp)
  · rw [hsh] at h
    simp only [freshEvents, List.mem_cons, List.mem_singleton] at h
    rcases h with h | h | h | h | h
    · exact absurd h (by simp)
    · exact absurd h (by simp)
    · exact ⟨req, hparse, by injection h⟩
    · exact absurd h (by simp)
    · exact absurd h (by simp)

/-- C9: the `from` of every email-send collaborator call is the fixed
configured sender — it never depends on the message or payload, so any two
sends under the same configuration carry the identical `from`. -/
theorem mailgun_from_fixed :
    (∀ (db : RelayDb) (bot : String) (msg : XmtpMessage) (mailgun : MailgunCfg) (conv : Bool)
      (parse : ParseOutcome) (outcome : SendOutcome) (now : String)
      (inp : MailgunSendEmailInput),
      Event.mailgunSend inp ∈ handleXmtpMessage db bot msg mailgun conv parse outcome now →
      inp.«from» = mailgun.«from») ∧
    (∀ (mailgun : MailgunCfg)
      (db1 : RelayDb) (bot1 : String) (msg1 : XmtpMessage) (conv1 : Bool)
      (parse1 : ParseOutcome) (outcome1 : SendOutcome) (now1 : String)
      (inp1 : MailgunSendEmailInput)
      (db2 : RelayDb) (bot2 : String) (msg2 : XmtpMessage) (conv2 : Bool)
      (parse2 : ParseOutcome) (outcome2 : SendOutcome) (now2 : String)
      (inp2 : MailgunSendEmailInput),
      Event.mailgunSend inp1 ∈ handleXmtpMessage db1 bot1 msg1 mailgun conv1 parse1 outcome1 now1 →
      Event.mailgunSend inp2 ∈ handleXmtpMessage db2 bot2 msg2 mailgun conv2 parse2 outcome2 now2 →
      inp1.«from» = inp2.«from») := by
  have hmain : ∀ (db : RelayDb) (bot : String) (msg : XmtpMessage) (mailgun : MailgunCfg)
      (conv : Bool) (parse : ParseOutcome) (outcome : SendOutcome) (now : String)
      (inp : MailgunSendEmailInput),
      Event.mailgunSend inp ∈ handleXmtpMessage db bot msg mailgun conv parse outcome now →
      inp.«from» = mailgun.«from» := by
    intro db bot msg mailgun conv parse outcome now inp h
    rcases mailgunSend_mem_handle db bot msg mailgun conv parse outcome now inp h with
      ⟨req, -, hinp⟩
    rw [hinp]
    rfl
  refine ⟨hmain, ?_⟩
  intro mailgun db1 bot1 msg1 conv1 parse1 outcome1 now1 inp1
    db2 bot2 msg2 conv2 parse2 outcome2 now2 inp2 h1 h2
  rw [hmain db1 bot1 msg1 mailgun conv1 parse1 outcome1 now1 inp1 h1,
    hmain db2 bot2 msg2 mailgun conv2 parse2 outcome2 now2 inp2 h2]

/-- Witness for C9 at a concrete send occurrence. -/
theorem mailgun_from_fixed_witness :
    (mailgunInputOf wMailgun wReq).«from» = wMailgun.«from» :=
  mailgun_from_fixed.1 wDb "bot" wMsg wMailgun true (ParseOutcome.valid wReq)
    (SendOutcome.success (some "mg1")) "t1" (mailgunInputOf wMailgun wReq) (by decide)

/-- Concrete store for the C7 counterexample: one row in `sending` whose
`error` column holds a previous value. -/
def c7db : RelayDb :=
  { inbound := []
    nextInboundId := 1
    outbound := [{ id := 1
                   xmtp_msg_id := "m1"
                   from_inbox := "alice"
                   to_email := ["a@x.com"]
                   cc_email := []
                   bcc_email := []
                   subject := none
                   text := some "t"
                   html := none
                   status := OutboundStatus.sending
                   mailgun_id := none
                   error := some "boom"
                   created_at := "t0"
                   updated_at := "t0" }]
    nextOutboundId := 2
    allowlist := [] }

/-- C7 counterexample: an update that supplies `error` as an explicit `null`
does NOT overwrite the stored value — `COALESCE(?, error)` keeps `"boom"`, so
an explicit null is indistinguishable from an omitted field. -/
theorem update_status_explicit_null_counterexample :
    ((c7db.updateOutboundRequestStatus "m1"
        { status := OutboundStatus.sent, mailgunId := some (some "mg"), error := some none }
        "t1").getOutboundRequestByXmtpMsgId "m1").map (fun r => r.error) =
      some (some "boom") ∧
    ((c7db.updateOutboundRequestStatus "m1"
        { status := OutboundStatus.sent, mailgunId := some (some "mg"), error := some none }
        "t1").getOutboundRequestByXmtpMsgId "m1").map (fun r => r.error) ≠
      some none := by
  constructor
  · decide
  · decide

/-- C7 amended: `updateOutboundRequestStatus` is a partial update — rows with
other message ids are untouched and, on the matching row, `status` and
`updated_at` are always set while `mailgun_id`/`error` are overwritten only
when supplied with a non-null value; a field that is omitted or supplied as
explicit `null` keeps the stored value (the source does not distinguish the
two: both collapse to a NULL parameter under `?? null` + `COALESCE`). -/
theorem update_status_partial_update (db : RelayDb) (xid : String)
    (u : OutboundStatusUpdate) (t : String) :
    (∀ y, y ≠ xid →
      (db.updateOutboundRequestStatus xid u t).getOutboundRequestByXmtpMsgId y =
        db.getOutboundRequestByXmtpMsgId y) ∧
    ((db.updateOutboundRequestStatus xid u t).getOutboundRequestByXmtpMsgId xid =
      (db.getOutboundRequestByXmtpMsgId xid).map (fun r =>
        { r with
          status := u.status
          mailgun_id :=
            (match u.mailgunId with
             | some (some s) => some s
             | some none => r.mailgun_id
             | none => r.mailgun_id)
          error :=
            (match u.error with
             | some (some s) => some s
             | some none => r.error
             | none => r.error)
          updated_at := t })) := by
  constructor
  · intro y hy
    rw [getOutbound_update]
    cases hy' : db.getOutboundRequestByXmtpMsgId y with
    | none => rfl
    | some r =>
        have hp : (r.xmtp_msg_id == y) = true := by
          have := List.find?_some hy'
          simpa using this
        rw [beq_iff_eq] at hp
        have hne : (r.xmtp_msg_id == xid) = false := by
          rw [hp]
          simp [beq_eq_false_iff_ne]
          exact fun hc => hy hc
        simp only [Option.map_some', hne, Bool.false_eq_true, if_false]
  · rw [getOutbound_update]
    cases hx : db.getOutboundRequestByXmtpMsgId xid with
    | none => rfl
    | some r =>
        have hp : (r.xmtp_msg_id == xid) = true := by
          have := List.find?_some hx
          simpa using this
        simp only [Option.map_some', hp, if_true]
        congr 1
        rcases u with ⟨us, um, ue⟩
        rcases um with _ | um <;> rcases ue with _ | ue
        · rfl
        · cases ue <;> rfl
        · cases um <;> rfl
        · cases um <;> cases ue <;> rfl

/-- Witness for C7's amended theorem: the frame part at a concrete store. -/
theorem update_status_partial_update_witness :
    (c7db.updateOutboundRequestStatus "m1"
        { status := OutboundStatus.sent, mailgunId := none, error := none }
        "t1").getOutboundRequestByXmtpMsgId "m2" =
      c7db.getOutboundRequestByXmtpMsgId "m2" :=
  (update_status_partial_update c7db "m1"
      { status := OutboundStatus.sent, mailgunId := none, error := none } "t1").1 "m2"
    (by decide)

/-- C8: one inbound delivery worker iteration discards a dequeued id whose
row is missing or already delivered — no delivery attempt, no store or queue
mutation beyond the dequeue itself; on a live row it attempts delivery,
marks delivery only after the conversation send succeeded, and on failure
re-enqueues the same id leaving the store untouched. -/
theorem inbound_worker_iteration (db : RelayDb) (q : DedupingQueue) (sendOk : Bool)
    (now : String) :
    (∀ id q', q.dequeue = (some id, q') →
      (db.getInboundEmailById id = none ∨
        (∃ row, db.getInboundEmailById id = some row ∧ jsTruthy row.xmtp_sent_at = true)) →
      workerStep db q sendOk now = (db, q', [])) ∧
    (∀ id q' row, q.dequeue = (some id, q') →
      db.getInboundEmailById id = some row →
      jsTruthy row.xmtp_sent_at = false →
      (sendOk = true →
        workerStep db q sendOk now =
          (db.markInboundEmailSent row.id now, q',
            [WorkerEvent.conversationSend (buildInboundPayload row) true,
             WorkerEvent.dbMarkSent row.id now])) ∧
      (sendOk = false →
        workerStep db q sendOk now =
          (db, q'.enqueue row.id,
            [WorkerEvent.conversationSend (buildInboundPayload row) false,
             WorkerEvent.requeue row.id]))) := by
  constructor
  · intro id q' hdq hstale
    rcases hstale with hmiss | ⟨row, hrow, hsent⟩
    · simp [workerStep, hdq, hmiss]
    · simp [workerStep, hdq, hrow, hsent]
  · intro id q' row hdq hrow hsent
    constructor
    · intro hok
      subst hok
      simp [workerStep, hdq, hrow, hsent]
    · intro hfail
      subst hfail
      simp [workerStep, hdq, hrow, hsent]

/-- Witness for C8: a delivered row is discarded at a concrete store/queue. -/
def c8row : InboundEmailRow :=
  { id := 1
    dedupe_key := DedupeKey.direct "k1"
    mailgun_message_id := some "k1"
    message_id := none
    «from» := "a@x.com"
    «to» := "dean@xmtp.mx"
    subject := none
    text := some "t"
    html := none
    received_at := "t0"
    xmtp_sent_at := some "t1" }

/-- Concrete already-delivered store for the C8 witness. -/
def c8db : RelayDb :=
  { inbound := [c8row], nextInboundId := 2, outbound := [], nextOutboundId := 1,
    allowlist := [] }

theorem inbound_worker_iteration_witness :
    workerStep c8db { items := [1] } true "t2" = (c8db, { items := [] }, []) :=
  (inbound_worker_iteration c8db { items := [1] } true "t2").1 1 { items := [] }
    (by decide) (Or.inr ⟨c8row, by decide, by decide⟩)

/-- First C6 counterexample input: `from` contains a newline. -/
def c6a : InboundEmailInsert :=
  { mailgunMessageId := none, messageId := none, «from» := "a\nb", «to» := "c",
    subject := some "d", text := some "e", html := none, receivedAt := "f" }

/-- Second C6 counterexample input: same hash preimage, different fields. -/
def c6b : InboundEmailInsert :=
  { mailgunMessageId := none, messageId := none, «from» := "a", «to» := "b",
    subject := some "c", text := some "d", html := none, receivedAt := "e\nf" }

/-- C6 counterexample: two inbound records without transport ids that differ
in `from`, `to`, `subject`, `text` and `receivedAt` but have the identical
dedupe key, because the hash preimage joins the fields with `"\n"` and the
fields may themselves contain newlines — a deterministic collision, not a
hash collision. -/
theorem dedupe_key_newline_counterexample :
    computeInboundDedupeKey c6a = computeInboundDedupeKey c6b ∧
    c6a.«from» ≠ c6b.«from» ∧ c6a.«to» ≠ c6b.«to» ∧
    c6a.subject ≠ c6b.subject ∧ c6a.text ≠ c6b.text ∧
    c6a.receivedAt ≠ c6b.receivedAt ∧
    c6a.mailgunMessageId = none ∧ c6a.messageId = none ∧
    c6b.mailgunMessageId = none ∧ c6b.messageId = none := by
  refine ⟨?_, ?_, ?_, ?_, ?_, ?_, rfl, rfl, rfl, rfl⟩ <;> decide

/-- No character of the string is a newline. -/
def noNewline (s : String) : Bool :=
  s.data.all (fun c => c != '\n')

lemma append_cons_newline_inj (a1 : List Char) :
    ∀ (a2 r1 r2 : List Char), (∀ c ∈ a1, c ≠ '\n') → (∀ c ∈ a2, c ≠ '\n') →
      a1 ++ '\n' :: r1 = a2 ++ '\n' :: r2 → a1 = a2 ∧ r1 = r2 := by
  induction a1 with
  | nil =>
      intro a2 r1 r2 _ ha2 h
      cases a2 with
      | nil => simpa using h
      | cons y ys =>
          simp only [List.nil_append, List.cons_append, List.cons.injEq] at h
          exact absurd h.1.symm (ha2 y (by simp))
  | cons x xs ih =>
      intro a2 r1 r2 ha1 ha2 h
      cases a2 with
      | nil =>
          simp only [List.cons_append, List.nil_append, List.cons.injEq] at h
          exact absurd h.1 (ha1 x (by simp))
      | cons y ys =>
          simp only [List.cons_append, List.cons.injEq] at h
          rcases h with ⟨hxy, htl⟩
          rcases ih ys r1 r2 (fun c hc => ha1 c (by simp [hc]))
            (fun c hc => ha2 c (by simp [hc])) htl with ⟨he, hr⟩
          exact ⟨by rw [hxy, he], hr⟩

lemma noNewline_forall (s : String) (h : noNewline s = true) : ∀ c ∈ s.data, c ≠ '\n' := by
  intro c hc
  have := List.all_eq_true.mp h c hc
  simpa using this

/-- C6 amended: for records without a transport id and whose `from`, `to`,
`subject ?? ''` and `text ?? ''` contain no newline character, the dedupe key
is a deterministic function of `(from, to, subject ?? '', text ?? '',
receivedAt)` and keys are equal exactly when those five values are equal
(hash collisions excluded by modeling SHA-256 as injective).  Without the
newline restriction, distinct field tuples can produce the identical key. -/
theorem dedupe_key_content_hash (i1 i2 : InboundEmailInsert)
    (h1 : firstTruthyTrimmed i1.mailgunMessageId i1.messageId = none)
    (h2 : firstTruthyTrimmed i2.mailgunMessageId i2.messageId = none)
    (hf1 : noNewline i1.«from» = true) (hf2 : noNewline i2.«from» = true)
    (ht1 : noNewline i1.«to» = true) (ht2 : noNewline i2.«to» = true)
    (hs1 : noNewline (i1.subject.getD "") = true)
    (hs2 : noNewline (i2.subject.getD "") = true)
    (hx1 : noNewline (i1.text.getD "") = true)
    (hx2 : noNewline (i2.text.getD "") = true) :
    computeInboundDedupeKey i1 = computeInboundDedupeKey i2 ↔
      (i1.«from» = i2.«from» ∧ i1.«to» = i2.«to» ∧
       i1.subject.getD "" = i2.subject.getD "" ∧
       i1.text.getD "" = i2.text.getD "" ∧ i1.receivedAt = i2.receivedAt) := by
  simp only [computeInboundDedupeKey, h1, h2]
  constructor
  · intro hkey
    have hpre : (i1.«from» ++ "\n" ++ i1.«to» ++ "\n" ++ (i1.subject.getD "") ++ "\n"
        ++ (i1.text.getD "") ++ "\n" ++ i1.receivedAt) =
        (i2.«from» ++ "\n" ++ i2.«to» ++ "\n" ++ (i2.subject.getD "") ++ "\n"
          ++ (i2.text.getD "") ++ "\n" ++ i2.receivedAt) := by
      injection hkey
    have hdata := congrArg String.data hpre
    simp only [String.data_append, List.append_assoc,
      show ("\n" : String).data = ['\n'] from rfl, List.cons_append, List.nil_append] at hdata
    rcases append_cons_newline_inj _ _ _ _ (noNewline_forall _ hf1)
      (noNewline_forall _ hf2) hdata with ⟨hfrom, hrest1⟩
    rcases append_cons_newline_inj _ _ _ _ (noNewline_forall _ ht1)
      (noNewline_forall _ ht2) hrest1 with ⟨hto, hrest2⟩
    rcases append_cons_newline_inj _ _ _ _ (noNewline_forall _ hs1)
      (noNewline_forall _ hs2) hrest2 with ⟨hsub, hrest3⟩
    rcases append_cons_newline_inj _ _ _ _ (noNewline_forall _ hx1)
      (noNewline_forall _ hx2) hrest3 with ⟨htext, hrecv⟩
    exact ⟨String.ext hfrom, String.ext hto, String.ext hsub, String.ext htext,
      String.ext hrecv⟩
  · intro ⟨ha, hb, hc, hd, he⟩
    rw [ha, hb, hc, hd, he]

/-- Witness for C6's amended theorem at concrete newline-free records. -/
theorem dedupe_key_content_hash_witness :
    computeInboundDedupeKey wIns = computeInboundDedupeKey wIns ↔
      (wIns.«from» = wIns.«from» ∧ wIns.«to» = wIns.«to» ∧
       wIns.subject.getD "" = wIns.subject.getD "" ∧
       wIns.text.getD "" = wIns.text.getD "" ∧ wIns.receivedAt = wIns.receivedAt) :=
  dedupe_key_content_hash wIns wIns (by decide) (by decide) (by decide) (by decide)
    (by decide) (by decide) (by decide) (by decide) (by decide) (by decide)

lemma char_toLower_idem (c : Char) : c.toLower.toLower = c.toLower := by
  by_cases h : c.toNat ≥ 65 ∧ c.toNat ≤ 90
  · have hv : (c.toNat + 32).isValidChar := Or.inl (by omega)
    have hlow : c.toLower = Char.ofNat (c.toNat + 32) := by
      unfold Char.toLower
      simp [h]
    have hn : (Char.ofNat (c.toNat + 32)).toNat = c.toNat + 32 := by
      unfold Char.ofNat
      rw [dif_pos hv]
      rfl
    rw [hlow]
    unfold Char.toLower
    simp only [hn]
    have hno : ¬(c.toNat + 32 ≥ 65 ∧ c.toNat + 32 ≤ 90) := by omega
    rw [if_neg hno]
  · have hlow : c.toLower = c := by
      unfold Char.toLower
      simp [h]
    rw [hlow, hlow]

lemma matchTokenCI_some (t : List Char) :
    ∀ (s rest : List Char), matchTokenCI t s = some rest →
      ∃ pre, s = pre ++ rest ∧ pre.map Char.toLower = t := by
  induction t with
  | nil =>
      intro s rest h
      simp only [matchTokenCI, Option.some.injEq] at h
      exact ⟨[], by simp [h], rfl⟩
  | cons a ts ih =>
      intro s rest h
      cases s with
      | nil => simp [matchTokenCI] at h
      | cons c cs =>
          simp only [matchTokenCI] at h
          by_cases hc : (c.toLower == a) = true
          · rw [if_pos hc] at h
            rcases ih cs rest h with ⟨pre, hs, hm⟩
            rw [beq_iff_eq] at hc
            exact ⟨c :: pre, by simp [hs], by simp [hm, hc]⟩
          · rw [if_neg hc] at h
            cases h

lemma jsToLower_chars (s : String) : ∀ c ∈ (jsToLower s).data, c.toLower = c := by
  intro c hc
  simp only [jsToLower, List.mem_map] at hc
  rcases hc with ⟨x, -, rfl⟩
  exact char_toLower_idem x

/-- C10: the greeting classifier rejects content whose trimmed form starts
with `{` or with a markdown fence, and accepts only nonempty content that is
exactly `?` (after lowercasing) or begins with one of the greeting tokens
followed by the end of the content or a non-alphanumeric character. -/
theorem greeting_classifier (content : String) :
    ((jsStartsWith (jsTrim content) "\x7b" || jsStartsWith (jsTrim content) "```") = true →
      isGreetingMessage content = false) ∧
    (isGreetingMessage content = true →
      jsTrim content ≠ "" ∧
      (jsToLower (jsTrim content) = "?" ∨
        ∃ g ∈ greetingTokens, ∃ rest,
          (jsToLower (jsTrim content)).data = g.data ++ rest ∧
          (rest = [] ∨ ∃ c cs, rest = c :: cs ∧ isAsciiAlnumCI c = false))) := by
  constructor
  · intro hstart
    by_cases hempty : (jsTrim content == "") = true
    · simp [isGreetingMessage, hempty]
    · simp only [Bool.not_eq_true] at hempty
      simp [isGreetingMessage, hempty, hstart]
  · intro htrue
    simp only [isGreetingMessage] at htrue
    by_cases hempty : (jsTrim content == "") = true
    · rw [if_pos hempty] at htrue
      cases htrue
    rw [if_neg hempty] at htrue
    by_cases hstart :
        (jsStartsWith (jsTrim content) "\x7b" || jsStartsWith (jsTrim content) "```") = true
    · rw [if_pos hstart] at htrue
      cases htrue
    rw [if_neg hstart] at htrue
    refine ⟨by simpa using hempty, ?_⟩
    by_cases hq : (jsToLower (jsTrim content) == "?") = true
    · exact Or.inl (by simpa using hq)
    rw [if_neg hq] at htrue
    right
    rcases List.any_eq_true.mp htrue with ⟨g, hg, hmatch⟩
    refine ⟨g, hg, ?_⟩
    cases hmt : matchTokenCI g.toList (jsToLower (jsTrim content)).toList with
    | none => rw [hmt] at hmatch; cases hmatch
    | some rest =>
        rw [hmt] at hmatch
        rcases matchTokenCI_some g.toList _ rest hmt with ⟨pre, hsplit, hmap⟩
        have hpre : pre = g.data := by
          have hfix : pre.map Char.toLower = pre := by
            apply List.map_congr_left ?_ |>.trans (List.map_id pre)
            intro c hc
            apply jsToLower_chars (jsTrim content) c
            show c ∈ (jsToLower (jsTrim content)).data
            have : c ∈ pre ++ rest := List.mem_append_left rest hc
            rw [← hsplit] at this
            exact this
          rw [← hfix, hmap]
          rfl
        refine ⟨rest, ?_, ?_⟩
        · rw [← hpre]
          exact hsplit
        · cases rest with
          | nil => exact Or.inl rfl
          | cons c cs =>
              right
              refine ⟨c, cs, rfl, ?_⟩
              simp only [tailBoundaryOk, Bool.not_eq_true'] at hmatch
              exact hmatch

/-- Witness for C10 at concrete contents: a JSON-looking payload containing
"hello" is not a greeting, and the characterization applies to "Hello!". -/
theorem greeting_classifier_witness :
    isGreetingMessage "\x7b \"subject\": \"hello\" \x7d" = false ∧
    (jsTrim "  Hello! " ≠ "" ∧
      (jsToLower (jsTrim "  Hello! ") = "?" ∨
        ∃ g ∈ greetingTokens, ∃ rest,
          (jsToLower (jsTrim "  Hello! ")).data = g.data ++ rest ∧
          (rest = [] ∨ ∃ c cs, rest = c :: cs ∧ isAsciiAlnumCI c = false))) :=
  ⟨(greeting_classifier "\x7b \"subject\": \"hello\" \x7d").1 (by decide),
   (greeting_classifier "  Hello! ").2 (by decide)⟩

lemma getOutbound_update_other (db : RelayDb) (x y : String) (u : OutboundStatusUpdate)
    (t : String) (hy : y ≠ x) :
    (db.updateOutboundRequestStatus x u t).getOutboundRequestByXmtpMsgId y =
      db.getOutboundRequestByXmtpMsgId y := by
  rw [getOutbound_update]
  cases hy' : db.getOutboundRequestByXmtpMsgId y with
  | none => rfl
  | some r =>
      have hp : (r.xmtp_msg_id == y) = true := by
        have := List.find?_some hy'
        simpa using this
      rw [beq_iff_eq] at hp
      have hne : (r.xmtp_msg_id == x) = false := by
        rw [hp]
        simp only [beq_eq_false_iff_ne, ne_eq]
        exact hy
      simp only [Option.map_some', hne, Bool.false_eq_true, if_false]

/-- One invocation of the outbound message stream handler, bundled. -/
structure Invocation where
  botInboxId : String
  msg : XmtpMessage
  mailgun : MailgunCfg
  conversationFound : Bool
  parse : ParseOutcome
  sendOutcome : SendOutcome
  now : String

/-- The events of one bundled invocation against a given store. -/
def invocationEvents (db : RelayDb) (inv : Invocation) : List Event :=
  handleXmtpMessage db inv.botInboxId inv.msg inv.mailgun inv.conversationFound inv.parse
    inv.sendOutcome inv.now

/-- The full event sequence of a list of handler invocations run in order,
each against the store produced by the previous ones (the message stream is
processed as an ordered sequence). -/
def runEvents (db : RelayDb) : List Invocation → List Event
  | [] => []
  | inv :: rest =>
      invocationEvents db inv ++
        runEvents (applyEvents db (invocationEvents db inv)) rest

/-- The stored row for a message id observed after each event. -/
def rowSnapshots (xid : String) : RelayDb → List Event → List (Option OutboundRequestRow)
  | _, [] => []
  | db, e :: es =>
      (applyEvent db e).getOutboundRequestByXmtpMsgId xid ::
        rowSnapshots xid (applyEvent db e) es

/-- The stored row for a message id observed before the first and after every
event. -/
def rowTrace (db : RelayDb) (xid : String) (evs : List Event) :
    List (Option OutboundRequestRow) :=
  db.getOutboundRequestByXmtpMsgId xid :: rowSnapshots xid db evs

/-- The forward transitions of the outbound status machine: stay, or
`received → sending`, or `sending → {sent, failed}`. -/
def statusStepOk (a b : OutboundStatus) : Bool :=
  a == b ||
    (a == OutboundStatus.received && b == OutboundStatus.sending) ||
    (a == OutboundStatus.sending &&
      (b == OutboundStatus.sent || b == OutboundStatus.failed))

/-- Allowed single-step evolution of the stored row: absent rows stay absent
or appear as fresh `received` rows with NULL `mailgun_id`/`error`; present
rows never disappear, their status moves only forward, and `mailgun_id`/
`error` change only on the transition from `sending` into a terminal
status. -/
def rowStepOk : Option OutboundRequestRow → Option OutboundRequestRow → Bool
  | none, none => true
  | none, some r =>
      r.status == OutboundStatus.received && r.mailgun_id == none && r.error == none
  | some _, none => false
  | some r1, some r2 =>
      statusStepOk r1.status r2.status &&
        ((r1.mailgun_id == r2.mailgun_id && r1.error == r2.error) ||
          (r1.status == OutboundStatus.sending &&
            (r2.status == OutboundStatus.sent || r2.status == OutboundStatus.failed)))

lemma rowStepOk_refl (a : Option OutboundRequestRow) : rowStepOk a a = true := by
  cases a with
  | none => rfl
  | some r =>
      simp [rowStepOk, statusStepOk]

lemma rowSnapshots_append (xid : String) (db : RelayDb) (l1 l2 : List Event) :
    rowSnapshots xid db (l1 ++ l2) =
      rowSnapshots xid db l1 ++ rowSnapshots xid (applyEvents db l1) l2 := by
  induction l1 generalizing db with
  | nil => rfl
  | cons e es ih =>
      simp only [List.cons_append, rowSnapshots, List.cons.injEq, true_and]
      exact ih (applyEvent db e)

lemma rowTrace_getLast (db : RelayDb) (xid : String) (evs : List Event) :
    (rowTrace db xid evs).getLast? =
      some ((applyEvents db evs).getOutboundRequestByXmtpMsgId xid) := by
  induction evs generalizing db with
  | nil => rfl
  | cons e es ih =>
      show ((db.getOutboundRequestByXmtpMsgId xid) ::
        (applyEvent db e).getOutboundRequestByXmtpMsgId xid ::
          rowSnapshots xid (applyEvent db e) es).getLast? = _
      rw [List.getLast?_cons_cons]
      exact ih (applyEvent db e)

lemma rowTrace_chain_of_frame (xid : String) (evs : List Event)
    (h : ∀ (d : RelayDb), ∀ e ∈ evs,
      (applyEvent d e).getOutboundRequestByXmtpMsgId xid =
        d.getOutboundRequestByXmtpMsgId xid) :
    ∀ db : RelayDb,
      List.Chain' (fun a b => rowStepOk a b = true) (rowTrace db xid evs) := by
  induction evs with
  | nil => intro db; exact List.chain'_singleton _
  | cons e es ih =>
      intro db
      show List.Chain' _ (db.getOutboundRequestByXmtpMsgId xid ::
        (applyEvent db e).getOutboundRequestByXmtpMsgId xid ::
          rowSnapshots xid (applyEvent db e) es)
      rw [List.chain'_cons]
      constructor
      · rw [h db e (by simp)]
        exact rowStepOk_refl _
      · exact ih (fun d e' he' => h d e' (by simp [he'])) (applyEvent db e)

lemma rowTrace_freshEvents_self (db : RelayDb) (msg : XmtpMessage) (mailgun : MailgunCfg)
    (req : EmailSendV1) (outcome : SendOutcome) (now : String)
    (hget : db.getOutboundRequestByXmtpMsgId msg.id = none) :
    rowTrace db msg.id (freshEvents msg mailgun req outcome now) =
      [none,
       some (insertedRow db (freshInsertInput msg req now)),
       some (updApply sendingUpdate now (insertedRow db (freshInsertInput msg req now))),
       some (updApply sendingUpdate now (insertedRow db (freshInsertInput msg req now))),
       some (finalRow db msg req outcome now),
       some (finalRow db msg req outcome now)] := by
  have h0 : (db.insertOutboundRequest
      (freshInsertInput msg req now)).1.getOutboundRequestByXmtpMsgId msg.id =
      some (insertedRow db (freshInsertInput msg req now)) :=
    getOutbound_insert_self db (freshInsertInput msg req now) hget
  have hid : ((insertedRow db (freshInsertInput msg req now)).xmtp_msg_id == msg.id) = true := by
    simp [insertedRow, freshInsertInput]
  have h1 : ((db.insertOutboundRequest
      (freshInsertInput msg req now)).1.updateOutboundRequestStatus msg.id sendingUpdate
        now).getOutboundRequestByXmtpMsgId msg.id =
      some (updApply sendingUpdate now (insertedRow db (freshInsertInput msg req now))) := by
    rw [getOutbound_update, h0, Option.map_some', if_pos hid]
  have hid2 : ((updApply sendingUpdate now
      (insertedRow db (freshInsertInput msg req now))).xmtp_msg_id == msg.id) = true := hid
  have h2 : (((db.insertOutboundRequest
      (freshInsertInput msg req now)).1.updateOutboundRequestStatus msg.id sendingUpdate
        now).updateOutboundRequestStatus msg.id (terminalUpdate outcome)
        now).getOutboundRequestByXmtpMsgId msg.id =
      some (finalRow db msg req outcome now) := by
    rw [getOutbound_update, h1, Option.map_some', if_pos hid2]
    rfl
  simp only [rowTrace, freshEvents, rowSnapshots, applyEvent, List.cons.injEq]
  exact ⟨hget, h0, h1, h1, h2, h2, trivial⟩

lemma rowTrace_chain_invocation (db : RelayDb) (inv : Invocation) (xid : String) :
    List.Chain' (fun a b => rowStepOk a b = true)
      (rowTrace db xid (invocationEvents db inv)) := by
  rcases handleXmtpMessage_shape db inv.botInboxId inv.msg inv.mailgun inv.conversationFound
      inv.parse inv.sendOutcome inv.now with hsh | ⟨r, hsh⟩ | ⟨req, hparse, hallow, hget, hsh⟩
  · unfold invocationEvents
    rw [hsh]
    exact List.chain'_singleton _
  · unfold invocationEvents
    rw [hsh]
    refine rowTrace_chain_of_frame xid [Event.reply r] ?_ db
    intro d e he
    rcases List.mem_singleton.mp he with rfl
    rfl
  · unfold invocationEvents
    rw [hsh]
    by_cases hxy : xid = inv.msg.id
    · subst hxy
      rw [rowTrace_freshEvents_self db inv.msg inv.mailgun req inv.sendOutcome inv.now hget]
      simp only [List.chain'_cons, List.chain'_singleton, and_true]
      refine ⟨?_, ?_, rowStepOk_refl _, ?_, rowStepOk_refl _⟩
      · simp [rowStepOk, insertedRow, freshInsertInput]
      · simp [rowStepOk, statusStepOk, updApply, sendingUpdate, insertedRow,
          freshInsertInput, sqlCoalesce, jsNullishToNull]
      · cases inv.sendOutcome with
        | success mid =>
            simp [rowStepOk, statusStepOk, finalRow, updApply, sendingUpdate,
              terminalUpdate, insertedRow, freshInsertInput, sqlCoalesce, jsNullishToNull]
        | failure errMsg =>
            simp [rowStepOk, statusStepOk, finalRow, updApply, sendingUpdate,
              terminalUpdate, insertedRow, freshInsertInput, sqlCoalesce, jsNullishToNull]
    · refine rowTrace_chain_of_frame xid _ ?_ db
      intro d e he
      have hxy' : xid ≠ inv.msg.id := hxy
      simp only [freshEvents, List.mem_cons, List.not_mem_nil, or_false] at he
      rcases he with rfl | rfl | rfl | rfl | rfl
      · exact getOutbound_insert_other d _ xid hxy'
      · exact getOutbound_update_other d _ xid _ _ hxy'
      · rfl
      · exact getOutbound_update_other d _ xid _ _ hxy'
      · rfl

lemma rowTrace_chain_run (xid : String) :
    ∀ (invs : List Invocation) (db : RelayDb),
      List.Chain' (fun a b => rowStepOk a b = true)
        (rowTrace db xid (runEvents db invs)) := by
  intro invs
  induction invs with
  | nil => intro db; exact List.chain'_singleton _
  | cons inv rest ih =>
      intro db
      have heq : rowTrace db xid (runEvents db (inv :: rest)) =
          rowTrace db xid (invocationEvents db inv) ++
            rowSnapshots xid (applyEvents db (invocationEvents db inv))
              (runEvents (applyEvents db (invocationEvents db inv)) rest) := by
        simp only [runEvents, rowTrace, rowSnapshots_append, List.cons_append]
      rw [heq, List.chain'_append]
      have h2 := ih (applyEvents db (invocationEvents db inv))
      refine ⟨rowTrace_chain_invocation db inv xid, ?_, ?_⟩
      · exact h2.tail
      · intro x hx y hy
        rw [rowTrace_getLast] at hx
        have hx' : (applyEvents db
            (invocationEvents db inv)).getOutboundRequestByXmtpMsgId xid = x := by
          simpa using hx
        rw [← hx']
        exact (List.chain'_cons'.mp h2).1 y hy

/-- The status values among the observed row snapshots. -/
def statusesOf (l : List (Option OutboundRequestRow)) : List OutboundStatus :=
  l.filterMap (fun o => o.map (fun r => r.status))

lemma chain_statusesOf : ∀ l : List (Option OutboundRequestRow),
    List.Chain' (fun a b => rowStepOk a b = true) l →
    List.Chain' (fun a b => statusStepOk a b = true) (statusesOf l) := by
  intro l
  induction l with
  | nil => intro _; exact List.chain'_nil
  | cons o1 tail ih =>
      intro h
      cases tail with
      | nil =>
          cases o1 with
          | none => exact List.chain'_nil
          | some r1 => exact List.chain'_singleton _
      | cons o2 rest =>
          rw [List.chain'_cons] at h
          rcases h with ⟨hstep, htail⟩
          cases o1 with
          | none =>
              show List.Chain' _ (statusesOf (o2 :: rest))
              exact ih htail
          | some r1 =>
              cases o2 with
              | none => cases hstep
              | some r2 =>
                  show List.Chain' _ (r1.status :: r2.status :: statusesOf rest)
                  rw [List.chain'_cons]
                  refine ⟨(Bool.and_eq_true_iff.mp hstep).1, ?_⟩
                  exact ih htail

/-- The claim's shape: the observed statuses form a run of `received`, then a
run of `sending`, then a run of a single terminal value. -/
def MonotoneStatusSeq (l : List OutboundStatus) : Prop :=
  ∃ n1 n2 n3 t, (t = OutboundStatus.sent ∨ t = OutboundStatus.failed) ∧
    l = List.replicate n1 OutboundStatus.received ++
      List.replicate n2 OutboundStatus.sending ++ List.replicate n3 t

lemma chain_shape : ∀ l : List OutboundStatus,
    List.Chain' (fun a b => statusStepOk a b = true) l → MonotoneStatusSeq l := by
  intro l
  induction l with
  | nil => intro _; exact ⟨0, 0, 0, OutboundStatus.sent, Or.inl rfl, rfl⟩
  | cons s rest ih =>
      intro h
      cases rest with
      | nil =>
          cases s with
          | received => exact ⟨1, 0, 0, OutboundStatus.sent, Or.inl rfl, rfl⟩
          | sending => exact ⟨0, 1, 0, OutboundStatus.sent, Or.inl rfl, rfl⟩
          | sent => exact ⟨0, 0, 1, OutboundStatus.sent, Or.inl rfl, rfl⟩
          | failed => exact ⟨0, 0, 1, OutboundStatus.failed, Or.inr rfl, rfl⟩
      | cons s2 rest2 =>
          rw [List.chain'_cons] at h
          rcases h with ⟨hstep, htail⟩
          rcases ih htail with ⟨n1, n2, n3, t, ht, heq⟩
          cases s with
          | received =>
              refine ⟨n1 + 1, n2, n3, t, ht, ?_⟩
              rw [heq]
              simp [List.replicate_succ]
          | sending =>
              cases n1 with
              | succ k =>
                  rw [List.replicate_succ] at heq
                  simp only [List.cons_append] at heq
                  injection heq with hs2 hrest
                  rw [hs2] at hstep
                  simp [statusStepOk] at hstep
              | zero =>
                  simp only [List.replicate_zero, List.nil_append] at heq
                  refine ⟨0, n2 + 1, n3, t, ht, ?_⟩
                  rw [heq]
                  simp [List.replicate_succ]
          | sent =>
              cases n1 with
              | succ k =>
                  rw [List.replicate_succ] at heq
                  simp only [List.cons_append] at heq
                  injection heq with hs2 hrest
                  rw [hs2] at hstep
                  simp [statusStepOk] at hstep
              | zero =>
                  simp only [List.replicate_zero, List.nil_append] at heq
                  cases n2 with
                  | succ k =>
                      rw [List.replicate_succ] at heq
                      simp only [List.cons_append] at heq
                      injection heq with hs2 hrest
                      rw [hs2] at hstep
                      simp [statusStepOk] at hstep
                  | zero =>
                      simp only [List.replicate_zero, List.nil_append] at heq
                      cases n3 with
                      | zero => simp at heq
                      | succ k =>
                          rw [List.replicate_succ] at heq
                          injection heq with hs2 hrest
                          rcases ht with rfl | rfl
                          · refine ⟨0, 0, k + 2, OutboundStatus.sent, Or.inl rfl, ?_⟩
                            rw [hs2, hrest]
                            simp [List.replicate_succ]
                          · rw [hs2] at hstep
                            simp [statusStepOk] at hstep
          | failed =>
              cases n1 with
              | succ k =>
                  rw [List.replicate_succ] at heq
                  simp only [List.cons_append] at heq
                  injection heq with hs2 hrest
                  rw [hs2] at hstep
                  simp [statusStepOk] at hstep
              | zero =>
                  simp only [List.replicate_zero, List.nil_append] at heq
                  cases n2 with
                  | succ k =>
                      rw [List.replicate_succ] at heq
                      simp only [List.cons_append] at heq
                      injection heq with hs2 hrest
                      rw [hs2] at hstep
                      simp [statusStepOk] at hstep
                  | zero =>
                      simp only [List.replicate_zero, List.nil_append] at heq
                      cases n3 with
                      | zero => simp at heq
                      | succ k =>
                          rw [List.replicate_succ] at heq
                          injection heq with hs2 hrest
                          rcases ht with rfl | rfl
                          · rw [hs2] at hstep
                            simp [statusStepOk] at hstep
                          · refine ⟨0, 0, k + 2, OutboundStatus.failed, Or.inr rfl, ?_⟩
                            rw [hs2, hrest]
                            simp [List.replicate_succ]

/-- C4: for every outbound-request message id and every sequence of handler
invocations from any store, the observed row evolves only along the allowed
steps — it never disappears, its status never moves backward or takes another
order (`received → sending → {sent, failed}`), and `mailgun_id`/`error`
change only on the transition from `sending` into the terminal status — and
consequently the observed status sequence is a run of `received`, then
`sending`, then one terminal value: a subsequence (with repetition) of
`received, sending, sent` or of `received, sending, failed`. -/
theorem outbound_status_monotone (db : RelayDb) (invs : List Invocation) (xid : String) :
    List.Chain' (fun a b => rowStepOk a b = true) (rowTrace db xid (runEvents db invs)) ∧
    MonotoneStatusSeq (statusesOf (rowTrace db xid (runEvents db invs))) :=
  ⟨rowTrace_chain_run xid invs db,
   chain_shape _ (chain_statusesOf _ (rowTrace_chain_run xid invs db))⟩
